import Mathlib

/-!
Verification of the VideoEngine generation pipeline.

This file shallowly embeds the core of the VideoEngine repository:
the script segmenter (`parseScriptIntoSegments`), the keyword extractor
(`keywordExtractor.js`), the Kling fallback selector (`generateMockVideoUrl`
and `generateVideoWithFallback`), the Gemini job pipeline
(`generateVideoFromScript` of the Gemini service variant), the alternative
job pipeline (`advancedVideoGenerationService.js`), the
`AdvancedVideoGenerator` class, the `/generate` route validation and the
status-query functions.  Effectful JavaScript code is embedded in explicit
state-passing style over a `World` of random seeds; external collaborators
(the generation provider, the stock-video API, Google Drive, the
filesystem) are oracles carried in environment records.  Machine numbers
are modelled as `Nat`/`Int`/`ℚ`.

Theorems named `C1_…` through `C10_…` settle the frozen claims.
-/

/-! ### JavaScript string primitives

The segmenter splits strings with the regexes `/\n\s*\n|\r\n\s*\r\n/`
(paragraphs), `/(?<=[.!?])\s+/` (sentences) and `/\s+/` (words).  We embed
JavaScript strings as `List Char` and implement each split with the exact
`String.prototype.split` semantics: scanning left to right, a (non-empty)
leftmost match ends the current piece and is dropped; a match touching the
start or end of the string produces an empty piece there. -/

/-- Whitespace test for the JavaScript regex class `\s`
(tab, line feed, vertical tab, form feed, carriage return, space,
no-break space, and the Unicode space separators recognised by `\s`). -/
def isWs (c : Char) : Bool :=
  c = ' ' ∨ c = '\t' ∨ c = '\n' ∨ c = '\r' ∨
  c = '\u000B' ∨ c = '\u000C' ∨ c = '\u00A0' ∨ c = '\u1680' ∨
  ('\u2000' ≤ c ∧ c ≤ '\u200A') ∨ c = '\u2028' ∨ c = '\u2029' ∨
  c = '\u202F' ∨ c = '\u205F' ∨ c = '\u3000' ∨ c = '\uFEFF'

/-- Word-character test for the JavaScript regex class `\w`. -/
def isWordChar (c : Char) : Bool :=
  ('a' ≤ c ∧ c ≤ 'z') ∨ ('A' ≤ c ∧ c ≤ 'Z') ∨ ('0' ≤ c ∧ c ≤ '9') ∨ c = '_'

/-- ASCII lower-casing of one character, embedding
`String.prototype.toLowerCase` (the scripts in this repository are ASCII;
the Unicode case table is not modelled). -/
def lowerChar (c : Char) : Char :=
  if 'A' ≤ c ∧ c ≤ 'Z' then Char.ofNat (c.toNat + 32) else c

/-- Lower-case a JavaScript string (`text.toLowerCase()`). -/
def lowerStr (s : List Char) : List Char := s.map lowerChar

/-- Non-whitespace content of a string, used to state segmentation
totality: the characters that no split separator can consume. -/
def nonWs (s : List Char) : List Char := s.filter (fun c => ¬ isWs c)

/-- Core of `s.split(/\s+/)`: `buf` is the current piece (reversed).
A piece ends exactly when a maximal whitespace run ends or the string
ends; a run touching either end of the string contributes an empty
piece, matching the JavaScript semantics (`"".split` gives `[""]`). -/
def splitWsGo (buf : List Char) : List Char → List (List Char)
  | [] => [buf.reverse]
  | [c] => if isWs c then [buf.reverse, []] else [(c :: buf).reverse]
  | c :: d :: cs =>
    if isWs c then
      if isWs d then splitWsGo buf (d :: cs)
      else buf.reverse :: splitWsGo [] (d :: cs)
    else splitWsGo (c :: buf) (d :: cs)

/-- JavaScript `s.split(/\s+/)`. -/
def splitWs (s : List Char) : List (List Char) := splitWsGo [] s

/-- Word count of a sentence or segment as the source computes it:
`sentence.split(/\s+/).length`. -/
def jsWordCount (s : List Char) : Nat := (splitWs s).length

/-- Number of maximal whitespace runs in a string; `s.split(/\s+/)` has
exactly one more piece than there are runs. -/
def wsRuns : List Char → Nat
  | [] => 0
  | [c] => if isWs c then 1 else 0
  | c :: d :: cs =>
    if isWs c then (if isWs d then wsRuns (d :: cs) else 1 + wsRuns (d :: cs))
    else wsRuns (d :: cs)

theorem splitWsGo_length (buf : List Char) (cs : List Char) :
    (splitWsGo buf cs).length = 1 + wsRuns cs := by
  induction buf, cs using splitWsGo.induct with
  | case1 buf => simp [splitWsGo, wsRuns]
  | case2 buf c h => simp [splitWsGo, wsRuns, h]
  | case3 buf c h => simp [splitWsGo, wsRuns, h]
  | case4 buf c d cs h1 h2 ih => simp [splitWsGo, wsRuns, h1, h2, ih]
  | case5 buf c d cs h1 h2 ih =>
    simp [splitWsGo, wsRuns, h1, h2, ih]; omega
  | case6 buf c d cs h1 ih => simp [splitWsGo, wsRuns, h1, ih]

theorem jsWordCount_eq_runs (s : List Char) : jsWordCount s = 1 + wsRuns s :=
  splitWsGo_length [] s

theorem wsRuns_append_le (a b : List Char) :
    wsRuns (a ++ b) ≤ wsRuns a + wsRuns b := by
  induction a with
  | nil => simp
  | cons c a ih =>
    cases a with
    | nil =>
      cases b with
      | nil => simp [wsRuns]
      | cons d bs =>
        by_cases h1 : isWs c <;> by_cases h2 : isWs d <;>
          simp [wsRuns, h1, h2] <;> omega
    | cons d as =>
      by_cases h1 : isWs c <;> by_cases h2 : isWs d <;>
        simp [wsRuns, h1, h2] at ih ⊢ <;> omega

theorem wsRuns_cons_le (c : Char) (b : List Char) :
    wsRuns (c :: b) ≤ 1 + wsRuns b := by
  cases b with
  | nil => by_cases h : isWs c <;> simp [wsRuns, h]
  | cons d bs =>
    by_cases h1 : isWs c <;> by_cases h2 : isWs d <;>
      simp [wsRuns, h1, h2] <;> omega

/-- Joining two pieces with a single space never increases the total
word count: the count of `a + " " + b` is at most the sum of the counts.
This is what keeps the segmenter's running `currentWordCount` an upper
bound for the word count of the accumulated segment. -/
theorem jsWordCount_join_le (a b : List Char) :
    jsWordCount (a ++ ' ' :: b) ≤ jsWordCount a + jsWordCount b := by
  have h1 := wsRuns_append_le a (' ' :: b)
  have h2 := wsRuns_cons_le ' ' b
  simp only [jsWordCount_eq_runs]
  omega

/-! ### Sentence split: `paragraph.split(/(?<=[.!?])\s+/)` -/

/-- Sentence-terminal punctuation, the lookbehind class `[.!?]`. -/
def isTermPunct : Option Char → Bool
  | some c => c = '.' ∨ c = '!' ∨ c = '?'
  | none => false

/-- Core of `p.split(/(?<=[.!?])\s+/)`.  `inSep` records whether the scan
is inside a whitespace run that started a separator (a run whose first
character directly follows `.`, `!` or `?`); `prev` is the previously
scanned character (the lookbehind), `buf` the current piece reversed. -/
def sentGo : Bool → Option Char → List Char → List Char → List (List Char)
  | _, _, buf, [] => [buf.reverse]
  | true, _, buf, c :: cs =>
    if isWs c then sentGo true (some c) buf cs
    else sentGo false (some c) (c :: buf) cs
  | false, prev, buf, c :: cs =>
    if isWs c ∧ isTermPunct prev then buf.reverse :: sentGo true (some c) [] cs
    else sentGo false (some c) (c :: buf) cs

/-- JavaScript `paragraph.split(/(?<=[.!?])\s+/)`. -/
def sentenceSplit (p : List Char) : List (List Char) := sentGo false none [] p

/-! ### Paragraph split: `script.split(/\n\s*\n|\r\n\s*\r\n/)`

A match of the first alternative starting at a `'\n'` is the maximal
whitespace run from there, backtracked to its last `'\n'` (the greedy
`\s*` retreats until the final `\n` can match); it exists when the run
holds a second `'\n'`.  A match of the second alternative starting at
`"\r\n"` likewise ends at the last `"\r\n"` pair inside the run. -/

/-- Maximal whitespace prefix of a string (what a greedy `\s*` scans). -/
def wsTake : List Char → List Char
  | [] => []
  | c :: cs => if isWs c then c :: wsTake cs else []

/-- Index of the last `'\n'` in a list, if any. -/
def lastNlIdx : List Char → Option Nat
  | [] => none
  | c :: cs =>
    match lastNlIdx cs with
    | some j => some (j + 1)
    | none => if c = '\n' then some 0 else none

/-- Index of the `'\n'` of the last adjacent `"\r\n"` pair, if any. -/
def lastCrNlIdx : List Char → Option Nat
  | [] => none
  | [_] => none
  | c :: d :: cs =>
    match lastCrNlIdx (d :: cs) with
    | some j => some (j + 1)
    | none => if c = '\r' ∧ d = '\n' then some 1 else none

/-- Length of the leftmost separator match of `/\n\s*\n|\r\n\s*\r\n/`
at the head of `cs`, if the head starts a match. -/
def paraSep : List Char → Option Nat
  | [] => none
  | c :: rest =>
    if c = '\n' then
      match lastNlIdx (c :: wsTake rest) with
      | some j => if 1 ≤ j then some (j + 1) else none
      | none => none
    else if c = '\r' ∧ rest.head? = some '\n' then
      match lastCrNlIdx (c :: wsTake rest) with
      | some j => if 3 ≤ j then some (j + 1) else none
      | none => none
    else none

/-- Scanner for the paragraph split; `fuel` bounds the number of steps
(the wrapper passes the string length, which always suffices because
every step consumes at least one character). -/
def paraGo : Nat → List Char → List Char → List (List Char)
  | 0, buf, _ => [buf.reverse]
  | _ + 1, buf, [] => [buf.reverse]
  | fuel + 1, buf, c :: cs =>
    match paraSep (c :: cs) with
    | some k => buf.reverse :: paraGo fuel [] (List.drop k (c :: cs))
    | none => paraGo fuel (c :: buf) cs

/-- JavaScript `script.split(/\n\s*\n|\r\n\s*\r\n/)`. -/
def paragraphSplit (s : List Char) : List (List Char) := paraGo s.length [] s

/-- Emptiness of `s.trim()`: a string trims to the empty string exactly
when all its characters are whitespace (`!paragraph.trim()`). -/
def jsTrimEmpty (s : List Char) : Bool := s.all isWs

/-! ### The segmenter `parseScriptIntoSegments`

Lines 48–96 of `src/services/advancedVideoGenerationService.js`
(identically lines 33–81 of the Gemini service variant). -/

/-- Average speaking rate used by the segmenter
(`const wordsPerSecond = 2.5`). -/
def wordsPerSecond : ℚ := 5 / 2

/-- The `sentences.forEach` accumulation of one paragraph, followed by the
final `if (currentSegment) segments.push(currentSegment)`.  State:
`cur` is `currentSegment` (empty string encoded as `[]`), `cnt` is
`currentWordCount`; `target` is `targetWordCount`. -/
def segFold (target : ℚ) : List (List Char) → List Char → Nat → List (List Char)
  | [], cur, _ => if cur.isEmpty then [] else [cur]
  | s :: rest, cur, cnt =>
    let swc := jsWordCount s
    if ((cnt : ℚ) + swc ≤ target) then
      segFold target rest (if cur.isEmpty then s else cur ++ ' ' :: s) (cnt + swc)
    else if ¬ cur.isEmpty then
      cur :: segFold target rest s swc
    else
      s :: segFold target rest [] 0

/-- The segmenter `parseScriptIntoSegments(script, clipDuration)` on
character lists: split into paragraphs, skip blank paragraphs, and pack
each paragraph's sentences into segments of at most
`clipDuration * wordsPerSecond` words. -/
def parseScriptIntoSegmentsL (script : List Char) (clipDuration : ℚ) :
    List (List Char) :=
  (paragraphSplit script).flatMap fun p =>
    if jsTrimEmpty p then []
    else segFold (clipDuration * wordsPerSecond) (sentenceSplit p) [] 0

/-- The segmenter on Lean strings. -/
def parseScriptIntoSegments (script : String) (clipDuration : ℚ) :
    List String :=
  (parseScriptIntoSegmentsL script.data clipDuration).map String.mk

/-! ### Kernel-computable form of the segmenter

Rational comparisons do not reduce inside the kernel (their
normalisation runs `Nat.gcd`, which is defined by well-founded
recursion), so concrete evaluations go through an equivalent
formulation for whole-second durations, with the bound
`cnt + swc ≤ n * 5 / 2` cross-multiplied to `2 * (cnt + swc) ≤ 5 * n`. -/

/-- The sentence accumulation with the word bound cross-multiplied, for a
whole-second clip duration `n`. -/
def segFoldN (n : Nat) : List (List Char) → List Char → Nat → List (List Char)
  | [], cur, _ => if cur.isEmpty then [] else [cur]
  | s :: rest, cur, cnt =>
    let swc := jsWordCount s
    if 2 * (cnt + swc) ≤ 5 * n then
      segFoldN n rest (if cur.isEmpty then s else cur ++ ' ' :: s) (cnt + swc)
    else if ¬ cur.isEmpty then
      cur :: segFoldN n rest s swc
    else
      s :: segFoldN n rest [] 0

/-- Kernel-computable segmenter for whole-second durations. -/
def parseSegsN (script : List Char) (n : Nat) : List (List Char) :=
  (paragraphSplit script).flatMap fun p =>
    if jsTrimEmpty p then []
    else segFoldN n (sentenceSplit p) [] 0

theorem segBound_iff (cnt n : Nat) :
    ((cnt : ℚ) ≤ (n : ℚ) * wordsPerSecond) ↔ 2 * cnt ≤ 5 * n := by
  rw [wordsPerSecond]
  rw [show (n : ℚ) * (5 / 2) = (5 * n : ℚ) / 2 by ring]
  rw [le_div_iff₀ (by norm_num : (0:ℚ) < 2)]
  rw [show (cnt : ℚ) * 2 = ((2 * cnt : ℕ) : ℚ) by push_cast; ring]
  rw [show (5 * (n:ℚ) : ℚ) = ((5 * n : ℕ) : ℚ) by push_cast; ring]
  exact Nat.cast_le

theorem segFold_eq_segFoldN (n : Nat) (sents : List (List Char))
    (cur : List Char) (cnt : Nat) :
    segFold ((n : ℚ) * wordsPerSecond) sents cur cnt = segFoldN n sents cur cnt := by
  induction sents generalizing cur cnt with
  | nil => rfl
  | cons s rest ih =>
    simp only [segFold, segFoldN]
    have hiff := segBound_iff (cnt + jsWordCount s) n
    push_cast at hiff
    by_cases h : 2 * (cnt + jsWordCount s) ≤ 5 * n
    · rw [if_pos (hiff.mpr h), if_pos h, ih]
    · rw [if_neg (fun hc => h (hiff.mp hc)), if_neg h]
      by_cases hcur : cur.isEmpty <;> simp [hcur, ih]

theorem parseSegsL_eq_parseSegsN (script : List Char) (n : Nat) :
    parseScriptIntoSegmentsL script (n : ℚ) = parseSegsN script n := by
  unfold parseScriptIntoSegmentsL parseSegsN
  congr 1
  funext p
  by_cases h : jsTrimEmpty p
  · simp [h]
  · simp [h, segFold_eq_segFoldN]

theorem parseSegs_ofNat (script : String) (n : Nat) :
    parseScriptIntoSegments script (n : ℚ) = (parseSegsN script.data n).map String.mk := by
  unfold parseScriptIntoSegments
  rw [parseSegsL_eq_parseSegsN]

/-! ### Claim C6: segmentation word-count bound -/

theorem segFold_mem_bound (target : ℚ) (S : List (List Char)) :
    ∀ (sents : List (List Char)) (cur : List Char) (cnt : Nat),
      (∀ x ∈ sents, x ∈ S) →
      (cur = [] ∨ (jsWordCount cur ≤ cnt ∧ (((cnt : ℚ) ≤ target) ∨ cur ∈ S))) →
      ∀ seg ∈ segFold target sents cur cnt,
        ((jsWordCount seg : ℚ) ≤ target) ∨ seg ∈ S := by
  intro sents
  induction sents with
  | nil =>
    intro cur cnt _ hinv seg hseg
    simp only [segFold] at hseg
    by_cases hcur : cur.isEmpty
    · simp [hcur] at hseg
    · simp [hcur] at hseg
      subst hseg
      rcases hinv with h | ⟨hwc, hcnt | hS⟩
      · simp [h] at hcur
      · exact Or.inl (le_trans (by exact_mod_cast hwc) hcnt)
      · exact Or.inr hS
  | cons s rest ih =>
    intro cur cnt hsub hinv seg hseg
    have hsS : s ∈ S := hsub s (by simp)
    have hrest : ∀ x ∈ rest, x ∈ S := fun x hx => hsub x (by simp [hx])
    simp only [segFold] at hseg
    by_cases hfit : ((cnt : ℚ) + jsWordCount s ≤ target)
    · rw [if_pos hfit] at hseg
      refine ih _ _ hrest ?_ seg hseg
      right
      constructor
      · by_cases hcur : cur.isEmpty
        · simp [hcur]
        · rw [if_neg hcur]
          rcases hinv with h | ⟨hwc, _⟩
          · simp [h] at hcur
          · exact le_trans (jsWordCount_join_le cur s) (by omega)
      · left; push_cast; exact hfit
    · rw [if_neg hfit] at hseg
      by_cases hcur : cur.isEmpty
      · simp only [hcur, not_true_eq_false, if_false, if_neg] at hseg
        simp at hseg
        rcases hseg with h | h
        · exact Or.inr (h ▸ hsS)
        · exact ih _ _ hrest (Or.inl rfl) seg h
      · simp only [hcur, not_false_eq_true, if_true, if_pos] at hseg
        simp at hseg
        rcases hseg with h | h
        · subst h
          rcases hinv with h | ⟨hwc, hcnt | hS⟩
          · simp [h] at hcur
          · exact Or.inl (le_trans (by exact_mod_cast hwc) hcnt)
          · exact Or.inr hS
        · refine ih _ _ hrest ?_ seg h
          right
          exact ⟨le_refl _, Or.inr hsS⟩

/-- Claim C6 (confirmed).  For every script and every `targetClipSeconds`,
every segment emitted by `parseScriptIntoSegments(script, targetClipSeconds)`
has word count (measured as the source measures it, by `split(/\s+/).length`)
at most `targetClipSeconds * 2.5`, or else it is one of the paragraph's
sentences emitted verbatim as its own segment (the oversized-sentence
exception). -/
theorem C6_segmentation_word_bound (script : String) (d : ℚ) :
    ∀ seg ∈ parseScriptIntoSegments script d,
      ((jsWordCount seg.data : ℚ) ≤ d * wordsPerSecond) ∨
      (∃ p ∈ paragraphSplit script.data, seg.data ∈ sentenceSplit p) := by
  intro seg hseg
  simp only [parseScriptIntoSegments, List.mem_map] at hseg
  obtain ⟨l, hl, rfl⟩ := hseg
  simp only [parseScriptIntoSegmentsL, List.mem_flatMap] at hl
  obtain ⟨p, hp, hlp⟩ := hl
  by_cases htrim : jsTrimEmpty p
  · simp [htrim] at hlp
  · rw [if_neg htrim] at hlp
    have := segFold_mem_bound (d * wordsPerSecond) (sentenceSplit p)
      (sentenceSplit p) [] 0 (fun x hx => hx) (Or.inl rfl) l hlp
    rcases this with h | h
    · left
      have : (String.mk l).data = l := rfl
      rw [this]
      exact h
    · right
      exact ⟨p, hp, by simpa using h⟩

/-- Witness for C6 at a concrete input: the single segment of
`"Hello there. General Kenobi."` with a four-second target satisfies the
bound-or-verbatim-sentence disjunction. -/
theorem C6_segmentation_word_bound_witness :
    "Hello there. General Kenobi." ∈
      parseScriptIntoSegments "Hello there. General Kenobi." 4 ∧
    (((jsWordCount "Hello there. General Kenobi.".data : ℚ) ≤ 4 * wordsPerSecond) ∨
      (∃ p ∈ paragraphSplit "Hello there. General Kenobi.".data,
        "Hello there. General Kenobi.".data ∈ sentenceSplit p)) := by
  have hmem : "Hello there. General Kenobi." ∈
      parseScriptIntoSegments "Hello there. General Kenobi." 4 := by
    rw [show (4 : ℚ) = ((4 : ℕ) : ℚ) by norm_num, parseSegs_ofNat]
    decide
  exact ⟨hmem, C6_segmentation_word_bound _ _ _ hmem⟩

/-! ### Claim C7: segmentation totality -/

theorem nonWs_append (a b : List Char) : nonWs (a ++ b) = nonWs a ++ nonWs b :=
  List.filter_append a b

theorem nonWs_eq_nil_of_all_ws {s : List Char} (h : s.all isWs) : nonWs s = [] := by
  induction s with
  | nil => rfl
  | cons c cs ih =>
    simp only [List.all_cons, Bool.and_eq_true] at h
    simp [nonWs, h.1, List.filter_cons]
    simpa [nonWs] using ih h.2

theorem nonWs_cons_ws {c : Char} (h : isWs c) (cs : List Char) :
    nonWs (c :: cs) = nonWs cs := by
  simp [nonWs, List.filter_cons, h]

theorem nonWs_cons_not_ws {c : Char} (h : ¬ isWs c) (cs : List Char) :
    nonWs (c :: cs) = c :: nonWs cs := by
  simp [nonWs, List.filter_cons, h]

theorem lastNlIdx_lt_length {l : List Char} {j : Nat} (h : lastNlIdx l = some j) :
    j < l.length := by
  induction l generalizing j with
  | nil => simp [lastNlIdx] at h
  | cons c cs ih =>
    simp only [lastNlIdx] at h
    cases hc : lastNlIdx cs with
    | some j0 =>
      rw [hc] at h
      injection h with h
      subst h
      exact Nat.succ_lt_succ (ih hc)
    | none =>
      rw [hc] at h
      by_cases hn : c = '\n'
      · simp [hn] at h
        subst h
        simp
      · simp [hn] at h

theorem lastCrNlIdx_lt_length {l : List Char} {j : Nat} (h : lastCrNlIdx l = some j) :
    j < l.length := by
  induction l generalizing j with
  | nil => simp [lastCrNlIdx] at h
  | cons c cs ih =>
    cases cs with
    | nil => simp [lastCrNlIdx] at h
    | cons d ds =>
      simp only [lastCrNlIdx] at h
      cases hc : lastCrNlIdx (d :: ds) with
      | some j0 =>
        rw [hc] at h
        injection h with h
        subst h
        exact Nat.succ_lt_succ (ih hc)
      | none =>
        rw [hc] at h
        by_cases hn : c = '\r' ∧ d = '\n'
        · simp [hn] at h; subst h; simp
        · simp [hn] at h

theorem take_ws_of_le_wsTake :
    ∀ (l : List Char) (k : Nat), k ≤ (wsTake l).length →
      ∀ x ∈ l.take k, isWs x := by
  intro l
  induction l with
  | nil => intro k _ x hx; simp at hx
  | cons c cs ih =>
    intro k hk x hx
    by_cases hc : isWs c
    · simp only [wsTake, hc, if_true, List.length_cons] at hk
      cases k with
      | zero => simp at hx
      | succ k0 =>
        simp only [List.take_succ_cons, List.mem_cons] at hx
        rcases hx with rfl | hx
        · exact hc
        · exact ih k0 (Nat.le_of_succ_le_succ hk) x hx
    · rw [Bool.not_eq_true] at hc
      simp only [wsTake, hc, Bool.false_eq_true, if_false, List.length_nil] at hk
      have hk0 : k = 0 := by omega
      subst hk0
      simp at hx

theorem paraSep_pos {cs : List Char} {k : Nat} (h : paraSep cs = some k) :
    1 ≤ k := by
  match cs with
  | [] => simp [paraSep] at h
  | c :: rest =>
    simp only [paraSep] at h
    by_cases h1 : c = '\n'
    · rw [if_pos h1] at h
      cases hl : lastNlIdx (c :: wsTake rest) with
      | none => simp only [hl] at h; exact absurd h (by simp)
      | some j =>
        simp only [hl] at h
        by_cases hj : 1 ≤ j
        · rw [if_pos hj] at h
          injection h with h
          omega
        · rw [if_neg hj] at h; exact absurd h (by simp)
    · rw [if_neg h1] at h
      by_cases h2 : c = '\r' ∧ rest.head? = some '\n'
      · rw [if_pos h2] at h
        cases hl : lastCrNlIdx (c :: wsTake rest) with
        | none => simp only [hl] at h; exact absurd h (by simp)
        | some j =>
          simp only [hl] at h
          by_cases hj : 3 ≤ j
          · rw [if_pos hj] at h
            injection h with h
            omega
          · rw [if_neg hj] at h; exact absurd h (by simp)
      · rw [if_neg h2] at h; exact absurd h (by simp)

theorem paraSep_take_ws {cs : List Char} {k : Nat} (h : paraSep cs = some k) :
    ∀ x ∈ cs.take k, isWs x := by
  match cs with
  | [] => simp [paraSep] at h
  | c :: rest =>
    simp only [paraSep] at h
    by_cases h1 : c = '\n'
    · rw [if_pos h1] at h
      cases hl : lastNlIdx (c :: wsTake rest) with
      | none => simp only [hl] at h; exact absurd h (by simp)
      | some j =>
        simp only [hl] at h
        by_cases hj : 1 ≤ j
        · rw [if_pos hj] at h
          injection h with h
          subst h
          have hlt := lastNlIdx_lt_length hl
          simp only [List.length_cons] at hlt
          intro x hx
          rw [List.take_succ_cons] at hx
          rcases List.mem_cons.mp hx with rfl | hx
          · subst h1; decide
          · exact take_ws_of_le_wsTake rest j (by omega) x hx
        · rw [if_neg hj] at h; exact absurd h (by simp)
    · rw [if_neg h1] at h
      by_cases h2 : c = '\r' ∧ rest.head? = some '\n'
      · rw [if_pos h2] at h
        cases hl : lastCrNlIdx (c :: wsTake rest) with
        | none => simp only [hl] at h; exact absurd h (by simp)
        | some j =>
          simp only [hl] at h
          by_cases hj : 3 ≤ j
          · rw [if_pos hj] at h
            injection h with h
            subst h
            have hlt := lastCrNlIdx_lt_length hl
            simp only [List.length_cons] at hlt
            intro x hx
            rw [List.take_succ_cons] at hx
            rcases List.mem_cons.mp hx with rfl | hx
            · rw [h2.1]; decide
            · exact take_ws_of_le_wsTake rest j (by omega) x hx
          · rw [if_neg hj] at h; exact absurd h (by simp)
      · rw [if_neg h2] at h; exact absurd h (by simp)

theorem nonWs_take_drop_ws {cs : List Char} {k : Nat}
    (h : ∀ x ∈ cs.take k, isWs x) : nonWs (cs.drop k) = nonWs cs := by
  have h1 : nonWs (cs.take k) = [] :=
    nonWs_eq_nil_of_all_ws (List.all_eq_true.mpr h)
  have h2 := nonWs_append (cs.take k) (cs.drop k)
  rw [List.take_append_drop, h1] at h2
  simpa using h2.symm

theorem nonWs_cons_split (c : Char) (cs : List Char) :
    nonWs (c :: cs) = nonWs [c] ++ nonWs cs := by
  by_cases h : isWs c
  · rw [nonWs_cons_ws h]
    have h1 : nonWs [c] = [] := by simp [nonWs, List.filter_cons, h]
    rw [h1, List.nil_append]
  · rw [nonWs_cons_not_ws h]
    have h1 : nonWs [c] = [c] := by simp [nonWs, List.filter_cons, h]
    rw [h1, List.singleton_append]

theorem sentGo_nonWs :
    ∀ (cs : List Char) (inSep : Bool) (prev : Option Char) (buf : List Char),
      nonWs (sentGo inSep prev buf cs).flatten = nonWs buf.reverse ++ nonWs cs := by
  intro cs
  induction cs with
  | nil => intro inSep prev buf; cases inSep <;> simp [sentGo, nonWs]
  | cons c cs ih =>
    intro inSep prev buf
    cases inSep with
    | true =>
      simp only [sentGo]
      by_cases h : isWs c
      · rw [if_pos h, ih, nonWs_cons_ws h]
      · rw [if_neg h, ih, List.reverse_cons, nonWs_append,
          nonWs_cons_split c cs, List.append_assoc]
    | false =>
      simp only [sentGo]
      by_cases h : isWs c ∧ isTermPunct prev
      · rw [if_pos h]
        simp only [List.flatten_cons]
        rw [nonWs_append, ih, nonWs_cons_ws h.1]
        simp [nonWs]
      · rw [if_neg h, ih, List.reverse_cons, nonWs_append,
          nonWs_cons_split c cs, List.append_assoc]

theorem paraGo_nonWs :
    ∀ (fuel : Nat) (buf cs : List Char), cs.length ≤ fuel →
      nonWs (paraGo fuel buf cs).flatten = nonWs buf.reverse ++ nonWs cs := by
  intro fuel
  induction fuel with
  | zero =>
    intro buf cs h
    have hnil : cs = [] := List.length_eq_zero.mp (Nat.le_zero.mp h)
    subst hnil
    simp [paraGo, nonWs]
  | succ fuel ih =>
    intro buf cs h
    cases cs with
    | nil => simp [paraGo, nonWs]
    | cons c cs0 =>
      simp only [paraGo]
      cases hsep : paraSep (c :: cs0) with
      | some k =>
        simp only [hsep, List.flatten_cons]
        have hk := paraSep_pos hsep
        have hws := paraSep_take_ws hsep
        have hlen : (List.drop k (c :: cs0)).length ≤ fuel := by
          simp only [List.length_drop, List.length_cons]
          simp only [List.length_cons] at h
          omega
        rw [nonWs_append, ih [] _ hlen, nonWs_take_drop_ws hws]
        simp [nonWs]
      | none =>
        simp only [hsep]
        rw [ih (c :: buf) cs0
          (by simpa using Nat.le_of_succ_le_succ (by simpa using h)),
          List.reverse_cons, nonWs_append, nonWs_cons_split c cs0,
          List.append_assoc]

theorem segFold_nonWs (target : ℚ) :
    ∀ (sents : List (List Char)) (cur : List Char) (cnt : Nat),
      nonWs (segFold target sents cur cnt).flatten =
        nonWs cur ++ nonWs sents.flatten := by
  intro sents
  induction sents with
  | nil =>
    intro cur cnt
    simp only [segFold]
    by_cases h : cur.isEmpty
    · rw [if_pos h, List.isEmpty_iff.mp h]
      simp [nonWs]
    · rw [if_neg h]
      simp [nonWs]
  | cons s rest ih =>
    intro cur cnt
    simp only [segFold, List.flatten_cons, nonWs_append]
    by_cases hfit : ((cnt : ℚ) + jsWordCount s ≤ target)
    · rw [if_pos hfit, ih]
      by_cases hcur : cur.isEmpty
      · rw [if_pos hcur, List.isEmpty_iff.mp hcur]
        simp [nonWs]
      · rw [if_neg hcur, nonWs_append, nonWs_cons_ws (by decide)]
        simp [List.append_assoc]
    · rw [if_neg hfit]
      by_cases hcur : cur.isEmpty
      · have hc : cur = [] := List.isEmpty_iff.mp hcur
        subst hc
        rw [if_neg (by simp)]
        simp only [List.flatten_cons, nonWs_append, ih]
        simp [nonWs]
      · rw [if_pos hcur]
        simp only [List.flatten_cons, nonWs_append, ih, List.append_assoc]

theorem parseSegsL_nonWs (script : List Char) (d : ℚ) :
    nonWs (parseScriptIntoSegmentsL script d).flatten = nonWs script := by
  have hpara : nonWs (paragraphSplit script).flatten = nonWs script := by
    unfold paragraphSplit
    simpa [nonWs] using paraGo_nonWs script.length [] script (le_refl _)
  unfold parseScriptIntoSegmentsL
  rw [← hpara]
  generalize paragraphSplit script = ps
  induction ps with
  | nil => simp
  | cons p ps ih =>
    simp only [List.flatMap_cons, List.flatten_append, nonWs_append,
      List.flatten_cons, ih]
    congr 1
    by_cases htrim : jsTrimEmpty p
    · rw [if_pos htrim]
      have h1 : nonWs p = [] := nonWs_eq_nil_of_all_ws htrim
      simp only [List.flatten_nil]
      rw [h1]
      rfl
    · rw [if_neg htrim, segFold_nonWs]
      have hsent := sentGo_nonWs p false none []
      unfold sentenceSplit
      simpa [nonWs] using hsent

/-- Claim C7 (confirmed).  Concatenating the text of all segments returned
by `parseScriptIntoSegments`, ignoring whitespace (the only characters the
splits drop and the joins inject), reproduces exactly the non-blank content
of the input script in its original order. -/
theorem C7_segmentation_totality (script : String) (d : ℚ) :
    nonWs (((parseScriptIntoSegments script d).map String.data).flatten) =
      nonWs script.data := by
  unfold parseScriptIntoSegments
  rw [List.map_map]
  have hid : (String.data ∘ String.mk) = id := by
    funext l; rfl
  rw [hid, List.map_id]
  exact parseSegsL_nonWs script.data d

/-! ### Effect model

Effectful JavaScript (calls to `Math.random`, `Date.now`,
`crypto.randomBytes`, `uuidv4` and awaited network calls) is embedded in
state-passing style over a `World` carrying a stream of seeds; each
consultation of the stream advances `tick`.  Pure code does not touch the
`World`, which is exactly what the determinism claims assert. -/

/-- State threaded through effectful computations: a stream of seed values
and the position of the next unread one. -/
structure World where
  seed : Nat → Nat
  tick : Nat

/-- Read one value from the seed stream (one `Math.random`, `Date.now` or
`crypto.randomBytes` call). -/
def World.next (w : World) : Nat × World :=
  (w.seed w.tick, { w with tick := w.tick + 1 })

/-- One `uuidv4()` call, producing a fresh identifier from the stream. -/
def uuidv4 (w : World) : String × World :=
  ("uid-" ++ toString (w.seed w.tick), { w with tick := w.tick + 1 })

/-! ### KeywordExtractor (`keywordExtractor.js`)

`extractKeywords(text, maxKeywords)` tokenizes with
`natural.WordTokenizer` (an external dependency, modelled as splitting
into maximal `\w` runs), drops stop words, short tokens and
non-lowercase-alphabetic tokens, counts frequencies in a plain object,
sorts entries descending by count with the (stable) `Array.prototype.sort`
and returns the top `maxKeywords`.  The stop-word list comes from the
external `stopwords` package and is passed as a parameter here.
`simpleKeywordExtraction` is the dependency-free variant with an in-source
stop-word list. -/

/-- Tokenizer core: maximal runs of word characters. -/
def tokGo (buf : List Char) : List Char → List (List Char)
  | [] => if buf.isEmpty then [] else [buf.reverse]
  | c :: cs =>
    if isWordChar c then tokGo (c :: buf) cs
    else if buf.isEmpty then tokGo [] cs
    else buf.reverse :: tokGo [] cs

/-- Model of `new natural.WordTokenizer().tokenize(s)`. -/
def wordTokenize (s : List Char) : List (List Char) := tokGo [] s

/-- The regex test `/^[a-z]+$/.test(token)`. -/
def isLowerAlpha (t : List Char) : Bool :=
  ¬ t.isEmpty ∧ t.all (fun c => 'a' ≤ c ∧ c ≤ 'z')

/-- One step of `wordFrequency[token] = (wordFrequency[token] || 0) + 1`:
bump the count of `k`, inserting it at the end on first occurrence
(JavaScript objects preserve insertion order for string keys). -/
def bumpCount (k : String) : List (String × Nat) → List (String × Nat)
  | [] => [(k, 1)]
  | (k0, n) :: rest =>
    if k0 = k then (k0, n + 1) :: rest else (k0, n) :: bumpCount k rest

/-- Frequency map of a token list, in first-occurrence order. -/
def countFreq (ts : List String) : List (String × Nat) :=
  ts.foldl (fun m t => bumpCount t m) []

/-- Decimal digit test. -/
def isDigitChar (c : Char) : Bool := '0' ≤ c ∧ c ≤ '9'

/-- Numeric value of a digit string. -/
def digitsVal (l : List Char) : Nat :=
  l.foldl (fun a c => 10 * a + (c.toNat - '0'.toNat)) 0

/-- Array-index keys (canonical decimal strings below `2^32 - 1`), which
`Object.entries` lists first in ascending numeric order. -/
def isArrayIndexKey (s : String) : Bool :=
  ¬ s.data.isEmpty ∧ s.data.all isDigitChar ∧
  (s.data = ['0'] ∨ s.data.head? ≠ some '0') ∧ digitsVal s.data < 4294967295

/-- Stable insertion (ascending in `f`) used to model the array-index part
of the `Object.entries` ordering. -/
def insertAscBy (f : String × Nat → Nat) (x : String × Nat) :
    List (String × Nat) → List (String × Nat)
  | [] => [x]
  | y :: ys => if f y ≤ f x then y :: insertAscBy f x ys else x :: y :: ys

/-- Stable insertion sort ascending in `f`. -/
def sortAscBy (f : String × Nat → Nat) (l : List (String × Nat)) :
    List (String × Nat) :=
  l.foldl (fun acc x => insertAscBy f x acc) []

/-- The `Object.entries` ordering on a frequency map: array-index keys
first in ascending numeric order, then the remaining keys in insertion
order. -/
def jsEntries (m : List (String × Nat)) : List (String × Nat) :=
  sortAscBy (fun p => digitsVal p.1.data) (m.filter fun p => isArrayIndexKey p.1) ++
    m.filter (fun p => ¬ isArrayIndexKey p.1)

/-- Stable insertion for `.sort((a, b) => b[1] - a[1])`: an element goes
after every element with a count at least as large, preserving the
relative order of equal counts exactly as the (stable) JavaScript sort. -/
def insertByCountDesc (x : String × Nat) :
    List (String × Nat) → List (String × Nat)
  | [] => [x]
  | y :: ys => if x.2 ≤ y.2 then y :: insertByCountDesc x ys else x :: y :: ys

/-- Stable sort descending by count. -/
def sortByCountDesc (l : List (String × Nat)) : List (String × Nat) :=
  l.foldl (fun acc x => insertByCountDesc x acc) []

/-- Lines 127–161 of `keywordExtractor.js` (concatenated into
`src/services/advancedVideoService.js`): `extractKeywords`, with the
external stop-word list as the `stopList` parameter. -/
def extractKeywords (stopList : List String) (text : String)
    (maxKeywords : Nat) : List String :=
  let tokens := (wordTokenize (lowerStr text.data)).map String.mk
  let filteredTokens := tokens.filter fun t =>
    3 < t.length ∧ ¬ stopList.contains t ∧ isLowerAlpha t.data
  let sortedWords := (sortByCountDesc (jsEntries (countFreq filteredTokens))).map (·.1)
  sortedWords.take maxKeywords

/-- The in-source stop-word list of `simpleKeywordExtraction`. -/
def commonWordsSimple : List String :=
  ["a", "an", "the", "and", "or", "but", "in", "on", "at", "to", "for",
   "with", "by", "about", "as", "of", "is", "are", "was", "were", "be",
   "been", "being", "have", "has", "had", "do", "does", "did", "will",
   "would", "should", "can", "could", "may", "might", "must", "shall",
   "this", "that", "these", "those", "i", "you", "he", "she", "it", "we",
   "they", "me", "him", "her", "us", "them"]

/-- Lines 169–201 of `keywordExtractor.js`: `simpleKeywordExtraction`.
`text.toLowerCase().replace(/[^\w\s]/g, '').split(/\s+/)`, then the
length/stop-word filter, frequency count, descending stable sort, top
`maxKeywords`. -/
def simpleKeywordExtraction (text : String) (maxKeywords : Nat) :
    List String :=
  let words := (splitWs ((lowerStr text.data).filter
    fun c => isWordChar c ∨ isWs c)).map String.mk
  let filteredWords := words.filter fun wd =>
    3 < wd.length ∧ ¬ commonWordsSimple.contains wd
  ((sortByCountDesc (jsEntries (countFreq filteredWords))).map (·.1)).take maxKeywords

/-- State-passing embedding of one `extractKeywords` call.  The source
body performs no random, time or network calls, so the call leaves the
world untouched; this is the content of the purity claim. -/
def extractKeywordsRun (stopList : List String) (text : String)
    (maxKeywords : Nat) (w : World) : List String × World :=
  (extractKeywords stopList text maxKeywords, w)

/-- State-passing embedding of one `simpleKeywordExtraction` call. -/
def simpleKeywordExtractionRun (text : String) (maxKeywords : Nat)
    (w : World) : List String × World :=
  (simpleKeywordExtraction text maxKeywords, w)

/-- Claim C9 (confirmed).  Keyword extraction is pure and idempotent: two
calls of `extractKeywords(text, maxKeywords)` on identical input — whether
run from arbitrary different worlds or sequentially, the second from the
world the first left behind — return identical keyword lists, and likewise
for `simpleKeywordExtraction`. -/
theorem C9_keyword_extraction_pure (stopList : List String) (text : String)
    (maxKeywords : Nat) (w w' : World) :
    (extractKeywordsRun stopList text maxKeywords w).1 =
      (extractKeywordsRun stopList text maxKeywords w').1 ∧
    (extractKeywordsRun stopList text maxKeywords
        (extractKeywordsRun stopList text maxKeywords w).2).1 =
      (extractKeywordsRun stopList text maxKeywords w).1 ∧
    (simpleKeywordExtractionRun text maxKeywords w).1 =
      (simpleKeywordExtractionRun text maxKeywords w').1 ∧
    (simpleKeywordExtractionRun text maxKeywords
        (simpleKeywordExtractionRun text maxKeywords w).2).1 =
      (simpleKeywordExtractionRun text maxKeywords w).1 :=
  ⟨rfl, rfl, rfl, rfl⟩

/-! ### Kling AI service (the unnamed module importing `keywordExtractor`)

`generateVideoWithFallback` tries the Kling provider; on any error result
it selects a deterministic stock asset by mapping extracted keywords
through a fixed keyword-to-category table (`generateMockVideoUrl`). -/

/-- Modelled from the spec: the fixed English stop-word list of the
external `stopwords` package (`require('stopwords').english`), which is
not among the repository sources; §4.2 of the spec specifies only "a
fixed stop-word set".  Used to instantiate the `stopList` parameter in
concrete evaluations. -/
def stopwordsEnglish : List String :=
  ["a", "about", "above", "after", "again", "against", "all", "am", "an",
   "and", "any", "are", "as", "at", "be", "because", "been", "before",
   "being", "below", "between", "both", "but", "by", "could", "did", "do",
   "does", "doing", "down", "during", "each", "few", "for", "from",
   "further", "had", "has", "have", "having", "he", "her", "here", "hers",
   "herself", "him", "himself", "his", "how", "i", "if", "in", "into",
   "is", "it", "its", "itself", "me", "more", "most", "my", "myself",
   "no", "nor", "not", "of", "off", "on", "once", "only", "or", "other",
   "ought", "our", "ours", "ourselves", "out", "over", "own", "same",
   "she", "should", "so", "some", "such", "than", "that", "the", "their",
   "theirs", "them", "themselves", "then", "there", "these", "they",
   "this", "those", "through", "to", "too", "under", "until", "up",
   "very", "was", "we", "were", "what", "when", "where", "which", "while",
   "who", "whom", "why", "with", "would", "you", "your", "yours",
   "yourself", "yourselves"]

namespace Kling

/-- The `stockVideos` object of `generateMockVideoUrl`: one canonical
asset per category. -/
def stockVideos : List (String × String) :=
  [("nature", "https://storage.googleapis.com/gtv-videos-bucket/sample/ForBiggerEscapes.mp4"),
   ("technology", "https://storage.googleapis.com/gtv-videos-bucket/sample/ForBiggerBlazes.mp4"),
   ("people", "https://storage.googleapis.com/gtv-videos-bucket/sample/ForBiggerJoyrides.mp4"),
   ("business", "https://storage.googleapis.com/gtv-videos-bucket/sample/ForBiggerMeltdowns.mp4"),
   ("food", "https://storage.googleapis.com/gtv-videos-bucket/sample/BigBuckBunny.mp4"),
   ("travel", "https://storage.googleapis.com/gtv-videos-bucket/sample/ElephantsDream.mp4"),
   ("sports", "https://storage.googleapis.com/gtv-videos-bucket/sample/TearsOfSteel.mp4"),
   ("default", "https://storage.googleapis.com/gtv-videos-bucket/sample/Sintel.mp4")]

/-- Property access `stockVideos[category]`. -/
def stockAsset (cat : String) : String := (stockVideos.lookup cat).getD ""

/-- The `categoryKeywords` table, in the object's fixed iteration order. -/
def categoryKeywords : List (String × List String) :=
  [("nature", ["nature", "landscape", "mountain", "ocean", "forest", "river",
               "lake", "beach", "sky", "sunset", "sunrise"]),
   ("technology", ["technology", "computer", "digital", "tech", "innovation",
                   "future", "robot", "ai", "artificial intelligence"]),
   ("people", ["people", "person", "man", "woman", "child", "family",
               "group", "crowd", "human"]),
   ("business", ["business", "office", "work", "meeting", "corporate",
                 "professional", "company", "startup"]),
   ("food", ["food", "meal", "restaurant", "cooking", "kitchen", "chef",
             "recipe", "dish", "cuisine"]),
   ("travel", ["travel", "vacation", "trip", "journey", "adventure",
               "tourism", "destination", "explore"]),
   ("sports", ["sports", "athlete", "game", "competition", "fitness",
               "exercise", "workout", "training"])]

/-- Inner loop of `generateMockVideoUrl`: the first category (in table
order) whose keyword list contains `keyword.toLowerCase()`. -/
def matchCategory (kw : String) : List (String × List String) → Option String
  | [] => none
  | (cat, lst) :: rest =>
    if lst.contains (String.mk (lowerStr kw.data)) then some cat
    else matchCategory kw rest

/-- Lines 236–271: `generateMockVideoUrl(keywords)` — scan the keywords in
order and return the asset of the first keyword found in any category
list; return the `default` asset when nothing matches. -/
def generateMockVideoUrl : List String → String
  | [] => (stockVideos.lookup "default").getD ""
  | kw :: rest =>
    match matchCategory kw categoryKeywords with
    | some cat => stockAsset cat
    | none => generateMockVideoUrl rest

/-- Result shape of the Kling service calls (`status`, `message` and the
optional payload fields the service attaches). -/
structure KlingResult where
  status : String
  message : String
  taskId : Option String := none
  videoUrl : Option String := none
  videoDuration : Option String := none
  keywords : List String := []
  isMock : Option Bool := none
deriving DecidableEq

/-- External state of the Kling service: whether API credentials are
configured and the provider's answer to the n-th submission (`none` is a
network error or non-zero response code). -/
structure KlingEnv where
  hasCreds : Bool
  tasksApi : Nat → Option String

/-- The credentials error message of `generateVideo`/`checkVideoStatus`. -/
def credsMsg : String :=
  "Kling AI API credentials not found in environment variables. Please set KLING_API_KEY_ID and KLING_API_KEY_SECRET."

/-- Lines 40–113: `generateVideo(prompt, options)`.  Without credentials
it returns an error result; otherwise it extracts keywords, builds an auth
token (consuming a timestamp and a random nonce) and submits the task,
returning a `submitted` or `error` result.  Every failure is caught and
returned as a result object, never thrown. -/
def generateVideo (env : KlingEnv) (stopList : List String) (prompt : String)
    (w : World) : KlingResult × World :=
  if ¬ env.hasCreds then
    ({ status := "error", message := "Failed to generate video: " ++ credsMsg }, w)
  else
    let kws := extractKeywords stopList prompt 5
    let (_, w1) := w.next
    let (_, w2) := w1.next
    match env.tasksApi w2.tick with
    | some taskId =>
      ({ status := "submitted",
         message := "Video generation task submitted successfully",
         taskId := some taskId, keywords := kws },
       { w2 with tick := w2.tick + 1 })
    | none =>
      ({ status := "error", message := "Failed to generate video: request failed" },
       { w2 with tick := w2.tick + 1 })

/-- Lines 191–229: `generateVideoWithFallback(prompt, options)`.  A
non-error provider result is returned as is; otherwise the keyword
fallback picks a stock asset and the result is marked `isMock: true`. -/
def generateVideoWithFallback (env : KlingEnv) (stopList : List String)
    (prompt : String) (w : World) : KlingResult × World :=
  let r := generateVideo env stopList prompt w
  if r.1.status ≠ "error" then r
  else
    let kws := extractKeywords stopList prompt 5
    let mockVideoUrl := generateMockVideoUrl kws
    ({ status := "completed", message := "Video generated using fallback mechanism",
       videoUrl := some mockVideoUrl, videoDuration := some "10",
       keywords := kws, isMock := some true }, r.2)

end Kling

/-! ### Claims C4 and C8: the fallback selector -/

/-- Claim C4 (confirmed).  Fallback determinism: when every provider call
fails, any two executions of the keyword-to-category fallback path on the
same segment text — started from arbitrary, different worlds — produce the
same result, whose asset is the deterministic
`generateMockVideoUrl(extractKeywords(prompt))` and which is marked
`isMock: true`. -/
theorem C4_fallback_determinism (env : Kling.KlingEnv) (stopList : List String)
    (prompt : String) (w w' : World) (hfail : ∀ k, env.tasksApi k = none) :
    (Kling.generateVideoWithFallback env stopList prompt w).1 =
      (Kling.generateVideoWithFallback env stopList prompt w').1 ∧
    (Kling.generateVideoWithFallback env stopList prompt w).1.videoUrl =
      some (Kling.generateMockVideoUrl (extractKeywords stopList prompt 5)) ∧
    (Kling.generateVideoWithFallback env stopList prompt w).1.isMock = some true := by
  have key : ∀ v : World, (Kling.generateVideoWithFallback env stopList prompt v).1 =
      { status := "completed", message := "Video generated using fallback mechanism",
        videoUrl := some (Kling.generateMockVideoUrl (extractKeywords stopList prompt 5)),
        videoDuration := some "10", keywords := extractKeywords stopList prompt 5,
        isMock := some true } := by
    intro v
    unfold Kling.generateVideoWithFallback Kling.generateVideo
    by_cases hc : env.hasCreds
    · simp [hc, hfail]
    · simp [hc]
  exact ⟨(key w).trans (key w').symm, by rw [key w], by rw [key w]⟩

/-- Witness for C4 at concrete inputs: an environment whose provider
always fails and two different worlds give identical fallback results on
`"The ocean waves crash"`, selecting the nature asset. -/
theorem C4_fallback_determinism_witness :
    (∀ k, (Kling.KlingEnv.mk true (fun _ => none)).tasksApi k = none) ∧
    (Kling.generateVideoWithFallback (Kling.KlingEnv.mk true (fun _ => none))
        stopwordsEnglish "The ocean waves crash" (World.mk (fun _ => 0) 0)).1 =
      (Kling.generateVideoWithFallback (Kling.KlingEnv.mk true (fun _ => none))
        stopwordsEnglish "The ocean waves crash" (World.mk (fun n => n + 7) 3)).1 ∧
    (Kling.generateVideoWithFallback (Kling.KlingEnv.mk true (fun _ => none))
        stopwordsEnglish "The ocean waves crash" (World.mk (fun _ => 0) 0)).1.videoUrl =
      some (Kling.generateMockVideoUrl
        (extractKeywords stopwordsEnglish "The ocean waves crash" 5)) := by
  refine ⟨fun k => rfl, ?_, ?_⟩
  · exact (C4_fallback_determinism _ stopwordsEnglish _ _ _ (fun _ => rfl)).1
  · exact (C4_fallback_determinism _ stopwordsEnglish _
      (World.mk (fun _ => 0) 0) (World.mk (fun _ => 0) 0) (fun _ => rfl)).2.1

/-- Definition following the amended wording of claim C8: scan the
extracted keywords in order; the first keyword contained in any category's
list (categories consulted in fixed table order) selects that category's
canonical asset; if no keyword matches any category, the default asset is
returned. -/
def specFallbackAsset (kws : List String) : String :=
  match kws.findSome? (fun kw =>
      (Kling.categoryKeywords.find? fun p =>
        p.2.contains (String.mk (lowerStr kw.data))).map (·.1)) with
  | some cat => Kling.stockAsset cat
  | none => Kling.stockAsset "default"

theorem matchCategory_eq_find (kw : String) :
    ∀ table : List (String × List String),
      Kling.matchCategory kw table =
        (table.find? fun p => p.2.contains (String.mk (lowerStr kw.data))).map (·.1) := by
  intro table
  induction table with
  | nil => rfl
  | cons p rest ih =>
    obtain ⟨cat, lst⟩ := p
    simp only [Kling.matchCategory]
    by_cases h : lst.contains (String.mk (lowerStr kw.data))
    · rw [if_pos h]
      simp only [List.find?, h]
      rfl
    · rw [if_neg h]
      simp only [List.find?]
      rw [Bool.not_eq_true] at h
      simp only [h]
      exact ih

/-- Claim C8 as amended (the code scans all keywords, not only the top
one): `generateMockVideoUrl` returns the asset selected by the first
keyword, in extraction order, that appears in any category's keyword list,
the default asset when no keyword matches, and maps `"ocean"` and
`"mountain"` to the nature asset. -/
theorem C8_keyword_category_fallback (kws : List String) :
    Kling.generateMockVideoUrl kws = specFallbackAsset kws ∧
    ((∀ kw ∈ kws, Kling.matchCategory kw Kling.categoryKeywords = none) →
      Kling.generateMockVideoUrl kws = Kling.stockAsset "default") ∧
    Kling.generateMockVideoUrl ["ocean"] = Kling.stockAsset "nature" ∧
    Kling.generateMockVideoUrl ["mountain"] = Kling.stockAsset "nature" := by
  refine ⟨?_, ?_, by decide, by decide⟩
  · induction kws with
    | nil => rfl
    | cons kw rest ih =>
      simp only [Kling.generateMockVideoUrl, specFallbackAsset, List.findSome?_cons]
      rw [← matchCategory_eq_find]
      cases h : Kling.matchCategory kw Kling.categoryKeywords with
      | some cat => rfl
      | none => simpa [specFallbackAsset] using ih
  · intro hnone
    induction kws with
    | nil => rfl
    | cons kw rest ih =>
      simp only [Kling.generateMockVideoUrl]
      rw [hnone kw (by simp)]
      exact ih (fun x hx => hnone x (by simp [hx]))

/-- Witness for C8's amended claim at a concrete input: no keyword of
`["zzzz"]` matches a category, and the selector returns the default
asset. -/
theorem C8_keyword_category_fallback_witness :
    (∀ kw ∈ ["zzzz"], Kling.matchCategory kw Kling.categoryKeywords = none) ∧
    Kling.generateMockVideoUrl ["zzzz"] = Kling.stockAsset "default" := by
  refine ⟨by decide, (C8_keyword_category_fallback ["zzzz"]).2.1 (by decide)⟩

/-- Counterexample to claim C8 as stated: for the segment text
`"qqqq qqqq ocean"` the top extracted keyword is `"qqqq"`, which matches
no category, yet the fallback returns the nature asset rather than the
default asset — the selection is not a function of the top keyword. -/
theorem C8_counterexample :
    (extractKeywords stopwordsEnglish "qqqq qqqq ocean" 5).head? = some "qqqq" ∧
    Kling.matchCategory "qqqq" Kling.categoryKeywords = none ∧
    Kling.generateMockVideoUrl (extractKeywords stopwordsEnglish "qqqq qqqq ocean" 5) =
      Kling.stockAsset "nature" ∧
    Kling.stockAsset "nature" ≠ Kling.stockAsset "default" := by decide

/-! ### Monotone sequences of observed progress values -/

/-- Adjacent-pairs check that a list of progress values never decreases. -/
def nondecr : List Nat → Bool
  | [] => true
  | [_] => true
  | a :: b :: t => decide (a ≤ b) && nondecr (b :: t)

theorem div_hundred_le {i n : Nat} (h : i ≤ n) : 100 * i / n ≤ 100 := by
  cases n with
  | zero =>
    have : i = 0 := Nat.le_zero.mp h
    subst this
    simp
  | succ m =>
    rw [Nat.div_le_iff_le_mul_add_pred (Nat.succ_pos m)]
    have h1 : 100 * i ≤ 100 * (m + 1) := Nat.mul_le_mul_left 100 h
    omega

/-! ### The Gemini pipeline (`generateVideoFromScript` of the Gemini
service variant, the unnamed module with reference-frame hand-off)

The job record lives in the `videoRequests` registry and is mutated in
place; the embedding returns the final record together with the trace of
every intermediate record state, in mutation order (status queries observe
a subsequence of this trace, one state per `await` point). -/

namespace Gemini

/-- Generation options; only the fields this pipeline reads are modelled
(unrecognised options are spread into the prompt payload only).
`maxClips` is carried to show it is never consulted. -/
structure Options where
  clipDuration : Option ℚ := none
  style : Option String := none
  maxClips : Option Nat := none
deriving DecidableEq

/-- JavaScript `options.clipDuration || 4` (`0` is falsy). -/
def jsClipDuration (o : Options) : ℚ :=
  match o.clipDuration with
  | some d => if d = 0 then 4 else d
  | none => 4

/-- A provider response: the video and thumbnail locators found in the
response payload, when present. -/
structure GemResp where
  videoUrl : Option String
  thumbnailUrl : Option String

/-- Google Drive upload result (`webViewLink`/`downloadUrl`). -/
structure DriveOut where
  webViewLink : String
  downloadUrl : String
deriving DecidableEq

/-- External state of the Gemini pipeline: `NODE_ENV === 'development'`,
whether a usable API key is configured, and the oracles for the provider,
the frame-extraction tool, Google Drive, the filesystem and the clock. -/
structure GemEnv where
  devMode : Bool
  apiKeyConfigured : Bool
  gemini : Nat → Option GemResp
  extractFrame : Nat → Option String
  drive : Nat → Option DriveOut
  fsOk : Bool
  now : Nat → String

/-- The mock storage prefix used for every fallback locator. -/
def mockVideosBase : String :=
  "https://storage.googleapis.com/gemini-generated-videos/"

/-- Substring scan underlying `containsSub`. -/
def infixAt (sub : List Char) : List Char → Bool
  | [] => sub.isEmpty
  | c :: cs => sub.isPrefixOf (c :: cs) || infixAt sub cs

/-- Substring test (`url.includes(sub)`). -/
def containsSub (s sub : String) : Bool := infixAt sub.data s.data

/-- The base64 still-image constant returned by the mock branches of
`extractReferenceFrame` (the long literal is abbreviated; nothing reads
its content). -/
def mockFrameData : String := "data:image/jpeg;base64,MOCKFRAME"

/-- Result of one `generateVideoClip` call (`videoUrl`, `thumbnailUrl`,
`prompt`, plus `isMock`/`error` set only by the production fallback
branch; an absent JavaScript property is `none`). -/
structure ClipData where
  videoUrl : String
  thumbnailUrl : String
  prompt : String
  isMock : Option Bool := none
  error : Option String := none
deriving DecidableEq

/-- The catch branch of `generateVideoClip` outside development mode:
fabricate mock locators and mark the result `isMock: true` with the error
message attached. -/
def clipFallback (prompt msg : String) (w : World) : ClipData × World :=
  let (u1, w1) := uuidv4 w
  let (u2, w2) := uuidv4 w1
  ({ videoUrl := mockVideosBase ++ u1 ++ ".mp4",
     thumbnailUrl := mockVideosBase ++ u2 ++ ".jpg",
     prompt := prompt, isMock := some true, error := some msg }, w2)

/-- Lines 90–210 of the Gemini service: `generateVideoClip(prompt,
options, referenceImageUrl)`.  In development mode or without an API key
it returns fresh mock locators (note: without any `isMock` mark); in
production a failing or unusable provider response is caught and answered
by `clipFallback`; a usable response is wrapped with `isMock` absent.
The function never throws. -/
def generateVideoClip (env : GemEnv) (prompt : String) (ref : Option String)
    (w : World) : ClipData × World :=
  if env.devMode ∨ ¬ env.apiKeyConfigured then
    let (u1, w1) := uuidv4 w
    let (u2, w2) := uuidv4 w1
    ({ videoUrl := mockVideosBase ++ u1 ++ ".mp4",
       thumbnailUrl := mockVideosBase ++ u2 ++ ".jpg", prompt := prompt }, w2)
  else
    let r := env.gemini w.tick
    let w0 : World := { w with tick := w.tick + 1 }
    match r with
    | some resp =>
      match resp.videoUrl with
      | some v =>
        ({ videoUrl := v, thumbnailUrl := resp.thumbnailUrl.getD "",
           prompt := prompt }, w0)
      | none => clipFallback prompt "No video URL found in Gemini API response" w0
    | none => clipFallback prompt "Empty response from Gemini API" w0

/-- Lines 217–283: `extractReferenceFrame(videoUrl)`.  Mock URLs and
development mode yield the mock frame; otherwise the external tool is
consulted and any failure is caught, also yielding the mock frame.  The
function never throws and never returns null in this variant. -/
def extractReferenceFrame (env : GemEnv) (videoUrl : String) (w : World) :
    String × World :=
  if env.devMode ∨ containsSub videoUrl "gemini-generated-videos" then
    (mockFrameData, w)
  else
    let w0 : World := { w with tick := w.tick + 1 }
    match env.extractFrame w.tick with
    | some frame => (frame, w0)
    | none => (mockFrameData, w0)

/-- Lines 395–475: `uploadToGoogleDrive(requestId, videoUrl)`.  Mock URLs
and development mode get a fabricated Drive response; a real upload
failure is caught and also answered with a fabricated response.  Never
throws. -/
def uploadToGoogleDrive (env : GemEnv) (videoUrl : String) (w : World) :
    DriveOut × World :=
  if env.devMode ∨ containsSub videoUrl "gemini-generated-videos" then
    let (fid, w1) := uuidv4 w
    ({ webViewLink := "https://drive.google.com/file/d/" ++ fid ++ "/view",
       downloadUrl := "https://drive.google.com/uc?export=download&id=" ++ fid }, w1)
  else
    let w0 : World := { w with tick := w.tick + 1 }
    match env.drive w.tick with
    | some resp => (resp, w0)
    | none =>
      let (fid, w1) := uuidv4 w0
      ({ webViewLink := "https://drive.google.com/file/d/" ++ fid ++ "/view",
         downloadUrl := "https://drive.google.com/uc?export=download&id=" ++ fid }, w1)

/-- A clip record as stored on the job: the object literal pushed at
lines 347–352 has exactly the keys `index`, `segment`, `videoUrl`,
`thumbnailUrl`; `isFallback` models reading the absent property
(`undefined`, hence always `none` — nothing in this service ever sets
it). -/
structure Clip where
  index : Nat
  segment : String
  videoUrl : String
  thumbnailUrl : String
  isFallback : Option Bool := none
deriving DecidableEq

/-- The job record kept in the `videoRequests` registry. -/
structure Job where
  id : String
  status : String
  progress : Nat
  script : String
  options : Options
  createdAt : String
  clips : List Clip := []
  finalVideoUrl : Option String := none
  message : String
  totalSegments : Option Nat := none
  googleDriveUrl : Option String := none
  googleDriveDownloadUrl : Option String := none
  completedAt : Option String := none
deriving DecidableEq

/-- The per-segment loop (lines 328–353): before generating clip `i` the
job's `progress` is set to `Math.floor((i / totalSegments) * 100)`; the
clip and the next reference frame are produced; then the clip record is
appended.  Returns the final job, the trace of intermediate job states in
mutation order, and the world. -/
def genLoop (env : GemEnv) (n : Nat) :
    List String → Nat → Option String → Job → World → Job × List Job × World
  | [], _, _, j, w => (j, [], w)
  | seg :: rest, i, ref, j, w =>
    let jA := { j with
      progress := 100 * i / n,
      message := "Generating clip " ++ toString (i + 1) ++ " of " ++ toString n }
    let c := generateVideoClip env seg ref w
    let f := extractReferenceFrame env c.1.videoUrl c.2
    let newClip : Clip := { index := i, segment := seg,
                            videoUrl := c.1.videoUrl,
                            thumbnailUrl := c.1.thumbnailUrl }
    let jB := { jA with clips := jA.clips ++ [newClip] }
    let r := genLoop env n rest (i + 1) (some f.1) jB f.2
    (r.1, jA :: jB :: r.2.1, r.2.2)

/-- The error message of the modelled `fs.mkdirSync` failure (the only
pre-loop statement that can throw). -/
def fsErrorMsg : String := "EACCES: permission denied, mkdir"

/-- Lines 291–387: `generateVideoFromScript(script, options)`.  Creates
the job record, runs segmentation, drives the loop, picks the final
locator (note: a zero-segment job receives a fabricated mock locator
rather than an error), uploads to Drive and finalises the job as
`completed` with `progress` 100.  The catch branch (status `failed`) is
reachable only through the filesystem oracle: every other step catches
its own failures. -/
def generateVideoFromScript (env : GemEnv) (script : String)
    (options : Options) (w : World) : Job × List Job × World :=
  let (requestId, w0) := uuidv4 w
  let createdAt := env.now w0.tick
  let w1 : World := { w0 with tick := w0.tick + 1 }
  let j0 : Job := { id := requestId, status := "processing", progress := 0,
                    script := script, options := options, createdAt := createdAt,
                    message := "Starting video generation process" }
  if ¬ env.fsOk then
    let jE := { j0 with status := "failed", message := "Error: " ++ fsErrorMsg }
    (jE, [j0, jE], w1)
  else
    let segments := parseScriptIntoSegments script (jsClipDuration options)
    let totalSegments := segments.length
    let j1 := { j0 with
                message := "Parsed script into " ++ toString totalSegments ++ " segments",
                totalSegments := some totalSegments }
    let lo := genLoop env totalSegments segments 0 none j1 w1
    let finalVideoUrl :=
      match lo.1.clips.getLast? with
      | some c => c.videoUrl
      | none => mockVideosBase ++ requestId ++ "_final.mp4"
    let dr := uploadToGoogleDrive env finalVideoUrl lo.2.2
    let jF := { lo.1 with
                status := "completed", progress := 100,
                finalVideoUrl := some finalVideoUrl,
                googleDriveUrl := some dr.1.webViewLink,
                googleDriveDownloadUrl := some dr.1.downloadUrl,
                message := "Video generation completed successfully",
                completedAt := some (env.now dr.2.tick) }
    (jF, j0 :: j1 :: lo.2.1 ++ [jF], { dr.2 with tick := dr.2.tick + 1 })

end Gemini

namespace Gemini

theorem genLoop_clips_length (env : GemEnv) (n : Nat) :
    ∀ (segs : List String) (i : Nat) (ref : Option String) (j : Job) (w : World),
      (genLoop env n segs i ref j w).1.clips.length = j.clips.length + segs.length := by
  intro segs
  induction segs with
  | nil => intro i ref j w; simp [genLoop]
  | cons seg rest ih =>
    intro i ref j w
    simp only [genLoop]
    rw [ih]
    simp
    omega

theorem genLoop_trace_status (env : GemEnv) (n : Nat) :
    ∀ (segs : List String) (i : Nat) (ref : Option String) (j : Job) (w : World),
      ∀ s ∈ (genLoop env n segs i ref j w).2.1, s.status = j.status := by
  intro segs
  induction segs with
  | nil => intro i ref j w s hs; simp [genLoop] at hs
  | cons seg rest ih =>
    intro i ref j w s hs
    simp only [genLoop, List.mem_cons] at hs
    rcases hs with rfl | rfl | hs
    · rfl
    · rfl
    · have h := ih _ _ _ _ s hs
      simpa using h

theorem genLoop_final_status (env : GemEnv) (n : Nat) :
    ∀ (segs : List String) (i : Nat) (ref : Option String) (j : Job) (w : World),
      (genLoop env n segs i ref j w).1.status = j.status := by
  intro segs
  induction segs with
  | nil => intro i ref j w; rfl
  | cons seg rest ih =>
    intro i ref j w
    simp only [genLoop]
    rw [ih]

theorem genLoop_isFallback (env : GemEnv) (n : Nat) :
    ∀ (segs : List String) (i : Nat) (ref : Option String) (j : Job) (w : World),
      (∀ c ∈ j.clips, c.isFallback = none) →
      ∀ c ∈ (genLoop env n segs i ref j w).1.clips, c.isFallback = none := by
  intro segs
  induction segs with
  | nil => intro i ref j w hj c hc; exact hj c hc
  | cons seg rest ih =>
    intro i ref j w hj c hc
    simp only [genLoop] at hc
    refine ih _ _ _ _ ?_ c hc
    intro c0 hc0
    simp only [List.mem_append, List.mem_singleton] at hc0
    rcases hc0 with hc0 | rfl
    · exact hj c0 hc0
    · rfl

theorem genLoop_pairs (env : GemEnv) (n : Nat) :
    ∀ (segs : List String) (i : Nat) (ref : Option String) (j : Job) (w : World),
      j.clips.length = i →
      ((genLoop env n segs i ref j w).2.1.map fun s => (s.progress, s.clips.length)) =
        (List.range' i segs.length).flatMap
          (fun k => [(100 * k / n, k), (100 * k / n, k + 1)]) := by
  intro segs
  induction segs with
  | nil => intro i ref j w _; simp [genLoop]
  | cons seg rest ih =>
    intro i ref j w hlen
    simp only [genLoop, List.length_cons, List.range'_succ, List.flatMap_cons,
      List.map_cons]
    rw [ih _ _ _ _ (by simp [hlen])]
    simp [hlen]

theorem genLoop_nondecr (env : GemEnv) (n : Nat) :
    ∀ (segs : List String) (i : Nat) (ref : Option String) (j : Job) (w : World)
      (p : Nat), i + segs.length ≤ n → p ≤ 100 * i / n →
      nondecr (p ::
        ((genLoop env n segs i ref j w).2.1.map (·.progress)) ++ [100]) = true := by
  intro segs
  induction segs with
  | nil =>
    intro i ref j w p hin hp
    have h100 : p ≤ 100 := le_trans hp (div_hundred_le (by omega))
    simp [genLoop, nondecr, h100]
  | cons seg rest ih =>
    intro i ref j w p hin hp
    have hin2 : (i + 1) + rest.length ≤ n := by
      simp only [List.length_cons] at hin
      omega
    have hnext : (100 : Nat) * i / n ≤ 100 * (i + 1) / n :=
      Nat.div_le_div_right (by omega)
    simp only [genLoop, List.map_cons, List.cons_append]
    simp only [nondecr, Bool.and_eq_true, decide_eq_true_eq]
    refine ⟨hp, le_refl _, ?_⟩
    exact ih _ _ _ _ _ hin2 hnext

end Gemini

/-- Claim C1 as amended.  Under total provider failure (production mode,
API key configured, filesystem healthy) the Gemini pipeline still drives a
job with N = `parseScriptIntoSegments(script).length` segments to
`completed` with exactly N clips and progress 100, and no state of the run
is ever `failed`; however, the clips are not marked `isFallback = true` —
the per-clip records stored on the job carry no fallback marker at all
(`isFallback` is absent), the mark the fallback does set being
`isMock: true` on the generation result that the stored record drops. -/
theorem C1_availability_amended (env : Gemini.GemEnv) (script : String)
    (options : Gemini.Options) (w : World)
    (hfs : env.fsOk = true) (hdev : env.devMode = false)
    (hkey : env.apiKeyConfigured = true)
    (hfail : ∀ k, env.gemini k = none)
    (hn : 1 ≤ (parseScriptIntoSegments script (Gemini.jsClipDuration options)).length) :
    (Gemini.generateVideoFromScript env script options w).1.status = "completed" ∧
    (Gemini.generateVideoFromScript env script options w).1.clips.length =
      (parseScriptIntoSegments script (Gemini.jsClipDuration options)).length ∧
    (Gemini.generateVideoFromScript env script options w).1.progress = 100 ∧
    (∀ c ∈ (Gemini.generateVideoFromScript env script options w).1.clips,
      c.isFallback = none) ∧
    (∀ s ∈ (Gemini.generateVideoFromScript env script options w).2.1,
      s.status ≠ "failed") ∧
    (∀ prompt ref w',
      (Gemini.generateVideoClip env prompt ref w').1.isMock = some true) := by
  refine ⟨?_, ?_, ?_, ?_, ?_, ?_⟩
  · simp [Gemini.generateVideoFromScript, hfs]
  · simp [Gemini.generateVideoFromScript, hfs, Gemini.genLoop_clips_length]
  · simp [Gemini.generateVideoFromScript, hfs]
  · intro c hc
    simp only [Gemini.generateVideoFromScript, hfs, not_true_eq_false,
      Bool.false_eq_true, if_false] at hc
    exact Gemini.genLoop_isFallback env _ _ _ _ _ _
      (fun c0 hc0 => absurd hc0 (by simp)) c hc
  · intro s hs
    simp only [Gemini.generateVideoFromScript, hfs, not_true_eq_false,
      Bool.false_eq_true, if_false] at hs
    have hstat : s.status = "processing" ∨ s.status = "completed" := by
      rcases List.mem_cons.mp hs with h | hs1
      · left; rw [h]
      rcases List.mem_cons.mp hs1 with h | hs2
      · left; rw [h]
      rcases List.mem_append.mp hs2 with h3 | h4
      · left
        have h5 := Gemini.genLoop_trace_status env _ _ _ _ _ _ s h3
        simpa using h5
      · right
        rw [List.mem_singleton.mp h4]
    rcases hstat with h | h <;> rw [h] <;> decide
  · intro prompt ref w'
    simp [Gemini.generateVideoClip, hdev, hkey, hfail, Gemini.clipFallback]

/-- Claim C2 as amended.  Over any run of the Gemini pipeline (healthy
filesystem), the job's progress values in mutation order form a
non-decreasing sequence ending at 100 with the job `completed`; the exact
(progress, number-of-clips) pairs observed are
`(0,0), (0,0)` at creation, then for each clip index k first
`(floor(100k/N), k)` when generation of clip k starts and
`(floor(100k/N), k+1)` when it is appended — so immediately after the k-th
clip is appended the progress is `floor(100(k-1)/N)`, not
`floor(100·k/N)`, and it stays below 100 until completion. -/
theorem C2_progress_amended (env : Gemini.GemEnv) (script : String)
    (options : Gemini.Options) (w : World) (hfs : env.fsOk = true) :
    nondecr (((Gemini.generateVideoFromScript env script options w).2.1).map
      (·.progress)) = true ∧
    (Gemini.generateVideoFromScript env script options w).1.progress = 100 ∧
    (Gemini.generateVideoFromScript env script options w).1.status = "completed" ∧
    ((Gemini.generateVideoFromScript env script options w).2.1.map
      (fun s => (s.progress, s.clips.length))) =
      [(0, 0), (0, 0)] ++
        ((List.range' 0 (parseScriptIntoSegments script
            (Gemini.jsClipDuration options)).length).flatMap
          (fun k =>
            [(100 * k / (parseScriptIntoSegments script
                (Gemini.jsClipDuration options)).length, k),
             (100 * k / (parseScriptIntoSegments script
                (Gemini.jsClipDuration options)).length, k + 1)])) ++
      [(100, (parseScriptIntoSegments script (Gemini.jsClipDuration options)).length)] := by
  refine ⟨?_, ?_, ?_, ?_⟩
  · simp only [Gemini.generateVideoFromScript, hfs, not_true_eq_false,
      Bool.false_eq_true, if_false, List.map_cons, List.map_append,
      List.map_cons, List.map_nil]
    simp only [nondecr, Bool.and_eq_true, decide_eq_true_eq]
    refine ⟨le_refl 0, ?_⟩
    refine Gemini.genLoop_nondecr env _ _ _ _ _ _ _ ?_ (Nat.zero_le _)
    omega
  · simp [Gemini.generateVideoFromScript, hfs]
  · simp [Gemini.generateVideoFromScript, hfs]
  · simp only [Gemini.generateVideoFromScript, hfs, not_true_eq_false,
      Bool.false_eq_true, if_false, List.map_cons, List.map_append,
      List.map_nil]
    rw [Gemini.genLoop_pairs env _ _ _ _ _ _ (by simp)]
    simp [Gemini.genLoop_clips_length]

/-! ### Concrete fixtures for closed evaluations -/

/-- A production environment whose provider, frame extractor and Drive
oracle all fail on every call, with a healthy filesystem. -/
def testEnv : Gemini.GemEnv :=
  { devMode := false, apiKeyConfigured := true, gemini := fun _ => none,
    extractFrame := fun _ => none, drive := fun _ => none, fsOk := true,
    now := fun _ => "2025-01-01T00:00:00.000Z" }

/-- A concrete world: the all-zero seed stream. -/
def testWorld : World := { seed := fun _ => 0, tick := 0 }

theorem parse_Hi_eval : parseScriptIntoSegments "Hi." 4 = ["Hi."] := by
  rw [show (4 : ℚ) = ((4 : ℕ) : ℚ) by norm_num, parseSegs_ofNat]
  decide

theorem parse_empty_eval : parseScriptIntoSegments "" 4 = [] := by
  rw [show (4 : ℚ) = ((4 : ℕ) : ℚ) by norm_num, parseSegs_ofNat]
  decide

theorem jsClipDuration_default : Gemini.jsClipDuration {} = 4 := rfl

/-- Counterexample to claim C1 as stated: with every provider call
failing, the one-segment job for `"Hi."` completes, but its stored clip is
not marked `isFallback = true` — the stored record has no `isFallback`
property at all. -/
theorem C1_counterexample :
    (∀ k, testEnv.gemini k = none) ∧
    (Gemini.generateVideoFromScript testEnv "Hi." {} testWorld).1.status =
      "completed" ∧
    ((Gemini.generateVideoFromScript testEnv "Hi." {} testWorld).1.clips.map
      (·.isFallback)) = [none] ∧
    ¬ (∀ c ∈ (Gemini.generateVideoFromScript testEnv "Hi." {} testWorld).1.clips,
        c.isFallback = some true) := by
  refine ⟨fun k => rfl, ?_, ?_, ?_⟩ <;>
    · simp only [Gemini.generateVideoFromScript, Gemini.jsClipDuration,
        jsClipDuration_default, parse_Hi_eval]
      decide

/-- Witness for C1's amended claim at a concrete input: the one-segment
script `"Hi."` under an always-failing provider. -/
theorem C1_availability_amended_witness :
    testEnv.fsOk = true ∧ testEnv.devMode = false ∧
    testEnv.apiKeyConfigured = true ∧ (∀ k, testEnv.gemini k = none) ∧
    1 ≤ (parseScriptIntoSegments "Hi." (Gemini.jsClipDuration {})).length ∧
    ((Gemini.generateVideoFromScript testEnv "Hi." {} testWorld).1.status =
        "completed" ∧
      (Gemini.generateVideoFromScript testEnv "Hi." {} testWorld).1.clips.length =
        (parseScriptIntoSegments "Hi." (Gemini.jsClipDuration {})).length ∧
      (Gemini.generateVideoFromScript testEnv "Hi." {} testWorld).1.progress = 100 ∧
      (∀ c ∈ (Gemini.generateVideoFromScript testEnv "Hi." {} testWorld).1.clips,
        c.isFallback = none) ∧
      (∀ s ∈ (Gemini.generateVideoFromScript testEnv "Hi." {} testWorld).2.1,
        s.status ≠ "failed") ∧
      (∀ prompt ref w',
        (Gemini.generateVideoClip testEnv prompt ref w').1.isMock = some true)) :=
  ⟨rfl, rfl, rfl, fun _ => rfl,
   by rw [jsClipDuration_default, parse_Hi_eval]; decide,
   C1_availability_amended testEnv "Hi." {} testWorld rfl rfl rfl (fun _ => rfl)
     (by rw [jsClipDuration_default, parse_Hi_eval]; decide)⟩

/-- Counterexample to claim C2 as stated: for the one-segment job for
`"Hi."` the full observed (progress, clips) trace is
`(0,0), (0,0), (0,0), (0,1), (100,1)` — after the first (and only) clip is
appended the job state has one clip but progress 0, while
`floor(100 * 1 / 1) = 100`; the claimed identity
`progress = floor(100 * len(clips) / len(segments))` fails at that
observable state. -/
theorem C2_counterexample :
    (parseScriptIntoSegments "Hi." 4).length = 1 ∧
    ((Gemini.generateVideoFromScript testEnv "Hi." {} testWorld).2.1.map
      (fun s => (s.progress, s.clips.length))) =
      [(0, 0), (0, 0), (0, 0), (0, 1), (100, 1)] ∧
    (∃ s ∈ (Gemini.generateVideoFromScript testEnv "Hi." {} testWorld).2.1,
      s.status = "processing" ∧ s.clips.length = 1 ∧ s.progress ≠ 100 * 1 / 1) := by
  refine ⟨by rw [parse_Hi_eval]; rfl, ?_, ?_⟩ <;>
    · simp only [Gemini.generateVideoFromScript, jsClipDuration_default,
        parse_Hi_eval]
      decide

/-- Witness for C2's amended claim at a concrete input. -/
theorem C2_progress_amended_witness :
    testEnv.fsOk = true ∧
    (nondecr (((Gemini.generateVideoFromScript testEnv "Hi." {} testWorld).2.1).map
      (·.progress)) = true ∧
    (Gemini.generateVideoFromScript testEnv "Hi." {} testWorld).1.progress = 100 ∧
    (Gemini.generateVideoFromScript testEnv "Hi." {} testWorld).1.status =
      "completed" ∧
    ((Gemini.generateVideoFromScript testEnv "Hi." {} testWorld).2.1.map
      (fun s => (s.progress, s.clips.length))) =
      [(0, 0), (0, 0)] ++
        ((List.range' 0 (parseScriptIntoSegments "Hi."
            (Gemini.jsClipDuration {})).length).flatMap
          (fun k =>
            [(100 * k / (parseScriptIntoSegments "Hi."
                (Gemini.jsClipDuration {})).length, k),
             (100 * k / (parseScriptIntoSegments "Hi."
                (Gemini.jsClipDuration {})).length, k + 1)])) ++
      [(100, (parseScriptIntoSegments "Hi." (Gemini.jsClipDuration {})).length)]) :=
  ⟨rfl, C2_progress_amended testEnv "Hi." {} testWorld rfl⟩

/-- Counterexample to claim C3 as stated: called on the empty script (zero
segments), the Gemini pipeline variant completes the job with zero clips
and a fabricated final locator instead of rejecting it or failing it. -/
theorem C3_counterexample :
    parseScriptIntoSegments "" (Gemini.jsClipDuration {}) = [] ∧
    (Gemini.generateVideoFromScript testEnv "" {} testWorld).1.status =
      "completed" ∧
    (Gemini.generateVideoFromScript testEnv "" {} testWorld).1.clips = [] ∧
    (Gemini.generateVideoFromScript testEnv "" {} testWorld).1.progress = 100 := by
  refine ⟨by rw [jsClipDuration_default, parse_empty_eval], ?_, ?_, ?_⟩ <;>
    · simp only [Gemini.generateVideoFromScript, jsClipDuration_default,
        parse_empty_eval]
      decide

/-! ### The alternative pipeline (`src/services/advancedVideoGenerationService.js`)

Same job lifecycle as the Gemini variant, but clips come from a stock
video search (`searchStockVideos`, random sample videos when no API key is
configured), the per-clip record keeps the extracted keywords, and a run
that produced zero clips throws `No clips were generated successfully`,
failing the job. -/

namespace AdvGen

/-- Generation options; `maxClips` is carried to show it is never
consulted by this pipeline. -/
structure Options where
  clipDuration : Option ℚ := none
  style : Option String := none
  maxClips : Option Nat := none
deriving DecidableEq

/-- JavaScript `options.clipDuration || 4`. -/
def jsClipDuration (o : Options) : ℚ :=
  match o.clipDuration with
  | some d => if d = 0 then 4 else d
  | none => 4

/-- The `videoConfig.sampleVideos` list. -/
def sampleVideos : List String :=
  ["https://storage.googleapis.com/gtv-videos-bucket/sample/BigBuckBunny.mp4",
   "https://storage.googleapis.com/gtv-videos-bucket/sample/ElephantsDream.mp4",
   "https://storage.googleapis.com/gtv-videos-bucket/sample/ForBiggerBlazes.mp4",
   "https://storage.googleapis.com/gtv-videos-bucket/sample/ForBiggerEscapes.mp4",
   "https://storage.googleapis.com/gtv-videos-bucket/sample/ForBiggerFun.mp4",
   "https://storage.googleapis.com/gtv-videos-bucket/sample/ForBiggerJoyrides.mp4",
   "https://storage.googleapis.com/gtv-videos-bucket/sample/ForBiggerMeltdowns.mp4",
   "https://storage.googleapis.com/gtv-videos-bucket/sample/Sintel.mp4",
   "https://storage.googleapis.com/gtv-videos-bucket/sample/SubaruOutbackOnStreetAndDirt.mp4",
   "https://storage.googleapis.com/gtv-videos-bucket/sample/TearsOfSteel.mp4"]

/-- One candidate file of a Pexels video (`video_files` entry). -/
structure PexelsFile where
  width : Nat
  height : Nat
  link : String
deriving DecidableEq

/-- One Pexels search hit. -/
structure PexelsVideo where
  videoFiles : List PexelsFile

/-- Google Drive upload result as this service consumes it. -/
structure DriveResp where
  webViewLink : String
  downloadUrl : String
deriving DecidableEq

/-- External state: whether a stock-video API key is configured, the
Pexels search oracle (`none` is a request error), the Drive oracle, the
filesystem and the clock. -/
structure Env where
  stockApiKey : Bool
  pexels : Nat → Option (List PexelsVideo)
  drive : Nat → Option DriveResp
  fsOk : Bool
  now : Nat → String

/-- The 16:9 filter on a candidate file:
`Math.abs(width/height - 16/9) < 0.1` (numbers as rationals). -/
def aspectOk (f : PexelsFile) : Bool :=
  |((f.width : ℚ) / (f.height : ℚ)) - 16 / 9| < 1 / 10

/-- Stable insertion for `.sort((a, b) => b.width*b.height - a.width*a.height)`. -/
def insertAreaDesc (x : PexelsFile) : List PexelsFile → List PexelsFile
  | [] => [x]
  | y :: ys =>
    if x.width * x.height ≤ y.width * y.height then y :: insertAreaDesc x ys
    else x :: y :: ys

/-- Stable sort of candidate files by resolution, descending. -/
def sortAreaDesc (l : List PexelsFile) : List PexelsFile :=
  l.foldl (fun a x => insertAreaDesc x a) []

/-- Best 16:9 file of one Pexels video, `null` when none qualifies. -/
def bestFile (v : PexelsVideo) : Option String :=
  match sortAreaDesc (v.videoFiles.filter aspectOk) with
  | [] => none
  | f :: _ => some f.link

/-- A random sample video:
`sampleVideos[Math.floor(Math.random() * sampleVideos.length)]`. -/
def randomSample (w : World) : List String × World :=
  let r := w.next
  ([sampleVideos.getD (r.1 % sampleVideos.length) ""], r.2)

/-- Lines 104–160: `searchStockVideos(query, options)`.  Without an API
key, or on a request error, or on an empty hit list, a random sample
video is returned; otherwise the best 16:9 file of each hit (which can
leave an empty list when no hit has a usable 16:9 file). -/
def searchStockVideos (env : Env) (w : World) : List String × World :=
  if ¬ env.stockApiKey then randomSample w
  else
    let w0 : World := { w with tick := w.tick + 1 }
    match env.pexels w.tick with
    | some vids =>
      if 0 < vids.length then ((vids.map bestFile).filterMap id, w0)
      else randomSample w0
    | none => randomSample w0

/-- The in-source `commonWords` list of this service's `extractKeywords`. -/
def commonWords20 : List String :=
  ["a", "an", "the", "and", "or", "but", "in", "on", "at", "to", "for",
   "with", "by", "about", "as", "of", "is", "are", "was", "were"]

/-- Lines 217–232: the local `extractKeywords(prompt)` returning a
space-joined string of up to three keywords.  Note the filter tests the
punctuation-stripped `cleanWord` but keeps the original token. -/
def extractKeywords (prompt : String) : String :=
  let words := (splitWs (lowerStr prompt.data)).map String.mk
  let keywords := words.filter fun word =>
    let cleanWord := String.mk (word.data.filter fun c => isWordChar c ∨ isWs c)
    3 < cleanWord.length ∧ ¬ commonWords20.contains cleanWord
  String.intercalate " " (keywords.take 3)

/-- Result of one `generateVideoClip` call. -/
structure ClipData where
  videoUrl : String
  thumbnailUrl : String
  keywords : String
deriving DecidableEq

/-- Lines 168–210: `generateVideoClip(prompt, options)` — extract
keywords, search stock videos, throw when the search produced no URL at
all, otherwise wrap the first URL with the placeholder thumbnail. -/
def generateVideoClip (env : Env) (prompt : String) (w : World) :
    Except String ClipData × World :=
  let keywords := extractKeywords prompt
  let s := searchStockVideos env w
  match s.1 with
  | [] => (.error "Failed to generate video clip: No suitable videos found", s.2)
  | videoUrl :: _ =>
    (.ok { videoUrl := videoUrl,
           thumbnailUrl := "https://via.placeholder.com/1280x720?text=Video+Thumbnail",
           keywords := keywords }, s.2)

/-- The clip record pushed onto the job (lines 302–308): `index`,
`segment`, `videoUrl`, `thumbnailUrl`, `keywords`; `isFallback` models the
absent property. -/
structure Clip where
  index : Nat
  segment : String
  videoUrl : String
  thumbnailUrl : String
  keywords : String
  isFallback : Option Bool := none
deriving DecidableEq

/-- The job record of this service. -/
structure Job where
  id : String
  status : String
  progress : Nat
  script : String
  options : Options
  createdAt : String
  clips : List Clip := []
  finalVideoUrl : Option String := none
  message : String
  totalSegments : Option Nat := none
  googleDriveUrl : Option String := none
  googleDriveDownloadUrl : Option String := none
  completedAt : Option String := none
deriving DecidableEq

/-- Outcome of the clip loop: the first thrown error if any, the job
state reached, the trace of intermediate states, and the world. -/
structure LoopOut where
  err : Option String
  job : Job
  trace : List Job
  world : World

/-- The per-segment loop (lines 286–309). -/
def genLoop (env : Env) (n : Nat) : List String → Nat → Job → World → LoopOut
  | [], _, j, w => { err := none, job := j, trace := [], world := w }
  | seg :: rest, i, j, w =>
    let jA := { j with
      progress := 100 * i / n,
      message := "Generating clip " ++ toString (i + 1) ++ " of " ++ toString n }
    let c := generateVideoClip env seg w
    match c.1 with
    | .error msg => { err := some msg, job := jA, trace := [jA], world := c.2 }
    | .ok clipData =>
      let newClip : Clip := { index := i, segment := seg,
                              videoUrl := clipData.videoUrl,
                              thumbnailUrl := clipData.thumbnailUrl,
                              keywords := clipData.keywords }
      let jB := { jA with clips := jA.clips ++ [newClip] }
      let r := genLoop env n rest (i + 1) jB c.2
      { r with trace := jA :: jB :: r.trace }

/-- Lines 351–381: `uploadToGoogleDrive` — on any failure the original
video URL doubles as both links; never throws. -/
def uploadToGoogleDrive (env : Env) (videoUrl : String) (w : World) :
    DriveResp × World :=
  let w0 : World := { w with tick := w.tick + 1 }
  match env.drive w.tick with
  | some r => (r, w0)
  | none => ({ webViewLink := videoUrl, downloadUrl := videoUrl }, w0)

/-- The error message of the modelled `fs.mkdirSync` failure. -/
def fsErrorMsg : String := "EACCES: permission denied, mkdir"

/-- Lines 251–343: `generateVideoFromScript(script, options)`.  Unlike
the Gemini variant, a run that appended no clips throws
`No clips were generated successfully`, which the catch turns into status
`failed`. -/
def generateVideoFromScript (env : Env) (script : String) (options : Options)
    (w : World) : Job × List Job × World :=
  let (requestId, w0) := uuidv4 w
  let createdAt := env.now w0.tick
  let w1 : World := { w0 with tick := w0.tick + 1 }
  let j0 : Job := { id := requestId, status := "processing", progress := 0,
                    script := script, options := options, createdAt := createdAt,
                    message := "Starting video generation process" }
  if ¬ env.fsOk then
    let jE := { j0 with status := "failed", message := "Error: " ++ fsErrorMsg }
    (jE, [j0, jE], w1)
  else
    let segments := parseScriptIntoSegments script (jsClipDuration options)
    let totalSegments := segments.length
    let j1 := { j0 with
                message := "Parsed script into " ++ toString totalSegments ++ " segments",
                totalSegments := some totalSegments }
    let lo := genLoop env totalSegments segments 0 j1 w1
    match lo.err with
    | some msg =>
      let jE := { lo.job with status := "failed", message := "Error: " ++ msg }
      (jE, j0 :: j1 :: lo.trace ++ [jE], lo.world)
    | none =>
      match lo.job.clips.getLast? with
      | none =>
        let jE := { lo.job with
                    status := "failed",
                    message := "Error: No clips were generated successfully" }
        (jE, j0 :: j1 :: lo.trace ++ [jE], lo.world)
      | some c =>
        let dr := uploadToGoogleDrive env c.videoUrl lo.world
        let jF := { lo.job with
                    status := "completed", progress := 100,
                    finalVideoUrl := some c.videoUrl,
                    googleDriveUrl := some dr.1.webViewLink,
                    googleDriveDownloadUrl := some dr.1.downloadUrl,
                    message := "Video generation completed successfully",
                    completedAt := some (env.now dr.2.tick) }
        (jF, j0 :: j1 :: lo.trace ++ [jF], { dr.2 with tick := dr.2.tick + 1 })

/-- Lines 388–394: `getVideoStatus(requestId)` over the `videoRequests`
registry — throws `Video request <id> not found` for unknown ids. -/
def getVideoStatus (reg : List (String × Job)) (requestId : String) :
    Except String Job :=
  match reg.lookup requestId with
  | none => .error ("Video request " ++ requestId ++ " not found")
  | some j => .ok j

end AdvGen

/-- The `/generate` route validation (`advancedVideoRoutes.js` lines
106–124): a missing or whitespace-only script is rejected with HTTP 400
`Script is required` before any job record is created; otherwise the
service runs with the enhanced options. -/
def postGenerate (env : AdvGen.Env) (script : String)
    (options : AdvGen.Options) (w : World) :
    Except (Nat × String) (AdvGen.Job × List AdvGen.Job × World) :=
  if script.data.all isWs then .error (400, "Script is required")
  else .ok (AdvGen.generateVideoFromScript env script options w)

/-- Claim C3 as amended.  A blank script is rejected by the route with
HTTP 400 before any job record is created; and in the
advancedVideoGenerationService pipeline a script yielding zero segments
drives the job to `failed` with a non-empty error message and zero clips
(if the filesystem step already failed, likewise `failed`).  The Gemini
variant violates the original claim (see the counterexample): it completes
a zero-segment job with zero clips. -/
theorem C3_empty_segmentation_amended :
    (∀ (env : AdvGen.Env) (script : String) (options : AdvGen.Options) (w : World),
      script.data.all isWs →
      postGenerate env script options w = .error (400, "Script is required")) ∧
    (∀ (env : AdvGen.Env) (script : String) (options : AdvGen.Options) (w : World),
      parseScriptIntoSegments script (AdvGen.jsClipDuration options) = [] →
      ((AdvGen.generateVideoFromScript env script options w).1.status = "failed" ∧
       (AdvGen.generateVideoFromScript env script options w).1.message ≠ "" ∧
       (AdvGen.generateVideoFromScript env script options w).1.clips = [])) := by
  constructor
  · intro env script options w hws
    unfold postGenerate
    rw [if_pos hws]
  · intro env script options w hseg
    by_cases hfs : env.fsOk
    · refine ⟨?_, ?_, ?_⟩ <;>
        simp only [AdvGen.generateVideoFromScript, hseg, hfs,
          not_true_eq_false, Bool.false_eq_true, if_false, AdvGen.genLoop,
          List.getLast?_nil] <;>
        decide
    · rw [Bool.not_eq_true] at hfs
      refine ⟨?_, ?_, ?_⟩ <;>
        simp only [AdvGen.generateVideoFromScript, hfs, Bool.false_eq_true,
          not_false_eq_true, if_true] <;>
        decide

/-- Witness for C3's amended claim: the empty script is rejected by the
route, and a direct service call on it fails with a message and no
clips. -/
theorem C3_empty_segmentation_amended_witness :
    ("".data.all isWs = true) ∧
    (parseScriptIntoSegments "" (AdvGen.jsClipDuration {}) = []) ∧
    (∀ (w : World), postGenerate
      (AdvGen.Env.mk false (fun _ => none) (fun _ => none) true (fun _ => "t"))
      "" {} w = .error (400, "Script is required")) ∧
    ((AdvGen.generateVideoFromScript
      (AdvGen.Env.mk false (fun _ => none) (fun _ => none) true (fun _ => "t"))
      "" {} testWorld).1.status = "failed" ∧
     (AdvGen.generateVideoFromScript
      (AdvGen.Env.mk false (fun _ => none) (fun _ => none) true (fun _ => "t"))
      "" {} testWorld).1.message ≠ "" ∧
     (AdvGen.generateVideoFromScript
      (AdvGen.Env.mk false (fun _ => none) (fun _ => none) true (fun _ => "t"))
      "" {} testWorld).1.clips = []) := by
  have hp : parseScriptIntoSegments "" (AdvGen.jsClipDuration {}) = [] := by
    rw [show AdvGen.jsClipDuration {} = ((4 : ℕ) : ℚ) by norm_num [AdvGen.jsClipDuration],
      parseSegs_ofNat]
    decide
  exact ⟨rfl, hp,
    fun w => (C3_empty_segmentation_amended).1 _ "" {} w rfl,
    (C3_empty_segmentation_amended).2 _ "" {} testWorld hp⟩

/-! ### The `AdvancedVideoGenerator` class (`advancedVideoGeneration.js`,
concatenated into `src/services/advancedVideoService.js`)

`generateConsistentClips(segments, style, characters)` is the one place
in the repository that consults `maxClips`: it slices the segment list to
the first `maxClips` entries before generating anything. -/

namespace AVG

/-- A parsed script segment of this class (`{ text, actions }`). -/
structure Seg where
  text : String
  actions : List String
deriving DecidableEq

/-- Zero-padding of a clip index (`index.toString().padStart(3, '0')`). -/
def pad3 (n : Nat) : String :=
  let s := toString n
  if s.length < 3 then String.mk (List.replicate (3 - s.length) '0') ++ s else s

/-- The path of generated clip `idx`
(`path.join(tempFolder, clip_XXX.mp4)`). -/
def clipPath (idx : Nat) : String := "temp/clip_" ++ pad3 idx ++ ".mp4"

/-- The `createInitialPrompt` template (the full multi-line literal is
abbreviated to the data it embeds). -/
def createInitialPrompt (seg : Seg) (style : String)
    (characters : List String) : String :=
  "Generate a video clip. STYLE: " ++ style ++ " CHARACTERS: " ++
    String.intercalate ", " characters ++ " SCRIPT: " ++ seg.text ++
    " ACTIONS: " ++ String.intercalate " " seg.actions

/-- The `createConsistentPrompt` template, referencing up to two previous
clips for continuity (likewise abbreviated). -/
def createConsistentPrompt (seg : Seg) (style : String)
    (characters : List String) (previousClipPaths : List String) : String :=
  "Generate a continuing video clip. STYLE: " ++ style ++ " CHARACTERS: " ++
    String.intercalate ", " characters ++ " SCRIPT FOR THIS CLIP: " ++
    seg.text ++ " ACTIONS FOR THIS CLIP: " ++
    String.intercalate " " seg.actions ++ " PREVIOUS: " ++
    String.intercalate ", " previousClipPaths

/-- The consistency loop over the remaining segments (lines 394–415):
each iteration prompts with up to the last two cached clips, generates
one clip, and caps the cache at three entries.  Returns the generated
clip paths and, for the truncation claim, the segments a prompt was
actually created for. -/
def avgLoop (style : String) (characters : List String) :
    List Seg → Nat → List String → List String × List Seg
  | [], _, _ => ([], [])
  | s :: rest, i, cache =>
    let _prompt := createConsistentPrompt s style characters
      (cache.drop (cache.length - 2))
    let path := clipPath i
    let cache1 := cache ++ [path]
    let cache2 := if 3 < cache1.length then cache1.drop 1 else cache1
    let r := avgLoop style characters rest (i + 1) cache2
    (path :: r.1, s :: r.2)

/-- Lines 375–419: `generateConsistentClips(segments, style, characters)`.
The segment list is sliced to `maxClips` entries up front
(`segments.slice(0, this.config.maxClips)`); the initial clip establishes
the style reference, the loop generates the rest.  Returns the clip paths
and the prompted segments. -/
def generateConsistentClips (segments : List Seg) (maxClips : Nat)
    (style : String) (characters : List String) : List String × List Seg :=
  let segmentsToProcess := segments.take maxClips
  match segmentsToProcess with
  | [] => ([], [])
  | s0 :: rest =>
    let _p0 := createInitialPrompt s0 style characters
    let path0 := clipPath 0
    let r := avgLoop style characters rest 1 [path0]
    (path0 :: r.1, s0 :: r.2)

theorem avgLoop_spec (style : String) (characters : List String) :
    ∀ (segs : List Seg) (i : Nat) (cache : List String),
      (avgLoop style characters segs i cache).1 =
        (List.range' i segs.length).map clipPath ∧
      (avgLoop style characters segs i cache).2 = segs := by
  intro segs
  induction segs with
  | nil => intro i cache; simp [avgLoop]
  | cons s rest ih =>
    intro i cache
    simp only [avgLoop, List.length_cons, List.range'_succ, List.map_cons]
    constructor
    · rw [(ih _ _).1]
    · rw [(ih _ _).2]

end AVG

/-- Claim C5 as amended.  In `AdvancedVideoGenerator.generateConsistentClips`
the segment list is truncated to its first `maxClips` elements before any
clip generation begins: the prompted segments are exactly
`segments.take maxClips`, every one of them yields a clip (no mid-flight
cancellation), and the generated clips are precisely clips `0` through
`min maxClips segments.length - 1`.  The
`advancedVideoGenerationService.generateVideoFromScript` pipeline, by
contrast, ignores `maxClips` entirely (see the counterexample). -/
theorem C5_maxClips_amended (segments : List AVG.Seg) (maxClips : Nat)
    (style : String) (characters : List String) :
    (AVG.generateConsistentClips segments maxClips style characters).2 =
      segments.take maxClips ∧
    (AVG.generateConsistentClips segments maxClips style characters).1.length =
      (segments.take maxClips).length ∧
    (AVG.generateConsistentClips segments maxClips style characters).1 =
      (List.range (min maxClips segments.length)).map AVG.clipPath := by
  have hlen : (segments.take maxClips).length = min maxClips segments.length :=
    List.length_take maxClips segments
  simp only [AVG.generateConsistentClips]
  cases htake : segments.take maxClips with
  | nil =>
    refine ⟨rfl, rfl, ?_⟩
    have h0 : min maxClips segments.length = 0 := by
      rw [← hlen, htake]
      rfl
    rw [h0]
    rfl
  | cons s0 rest =>
    have h1 := AVG.avgLoop_spec style characters rest 1 [AVG.clipPath 0]
    have hm : min maxClips segments.length = rest.length + 1 := by
      rw [← hlen, htake]
      rfl
    refine ⟨?_, ?_, ?_⟩
    · simp only [h1.2]
    · simp only [List.length_cons, h1.1, List.length_map, List.length_range']
    · simp only [h1.1]
      rw [hm, List.range_eq_range', List.range'_succ, List.map_cons]

/-- The alternative-pipeline environment for concrete evaluations: no
stock API key (sample videos), failing oracles, healthy filesystem. -/
def advTestEnv : AdvGen.Env :=
  { stockApiKey := false, pexels := fun _ => none, drive := fun _ => none,
    fsOk := true, now := fun _ => "2025-01-01T00:00:00.000Z" }

theorem parse_two_eval :
    parseScriptIntoSegments "Hello there everyone.\n\nGoodbye now friends." 4 =
      ["Hello there everyone.", "Goodbye now friends."] := by
  rw [show (4 : ℚ) = ((4 : ℕ) : ℚ) by norm_num, parseSegs_ofNat]
  decide

theorem advJsClipDuration_default :
    AdvGen.jsClipDuration { maxClips := some 1 } = 4 := rfl

/-- Counterexample to claim C5 as stated: submitted to
`advancedVideoGenerationService.generateVideoFromScript` with
`maxClips = 1`, a two-segment script still generates clips for both
segments — this pipeline never consults `maxClips`. -/
theorem C5_counterexample :
    (({ maxClips := some 1 } : AdvGen.Options)).maxClips = some 1 ∧
    (parseScriptIntoSegments "Hello there everyone.\n\nGoodbye now friends."
      (AdvGen.jsClipDuration { maxClips := some 1 })).length = 2 ∧
    (AdvGen.generateVideoFromScript advTestEnv
      "Hello there everyone.\n\nGoodbye now friends." { maxClips := some 1 }
      testWorld).1.clips.length = 2 ∧
    (AdvGen.generateVideoFromScript advTestEnv
      "Hello there everyone.\n\nGoodbye now friends." { maxClips := some 1 }
      testWorld).1.status = "completed" := by
  refine ⟨rfl, ?_, ?_, ?_⟩ <;>
    simp only [AdvGen.generateVideoFromScript, advJsClipDuration_default,
      parse_two_eval] <;>
    decide

/-! ### Status queries: the Kling status check and the compat layer -/

namespace Kling

/-- Task data of a Kling status response (`data[0]`). -/
structure TaskInfo where
  taskStatus : String
  videoUrl : String
  videoDuration : String
  statusMsg : String

/-- A status object as returned by `checkVideoStatus`. -/
structure StatusResult where
  status : String
  message : String
  videoUrl : Option String := none
  videoDuration : Option String := none
deriving DecidableEq

/-- Lines 120–183: `checkVideoStatus(taskId)`.  Without credentials, or
on any request failure, an error-status object is returned (never
thrown); with a response the task status maps to
`completed`/`failed`/`processing`.  `info` is the status-API oracle. -/
def checkVideoStatus (env : KlingEnv) (info : Nat → Option TaskInfo)
    (w : World) : StatusResult × World :=
  if ¬ env.hasCreds then
    ({ status := "error",
       message := "Failed to check video status: " ++ credsMsg }, w)
  else
    let (_, w1) := w.next
    let (_, w2) := w1.next
    let w3 : World := { w2 with tick := w2.tick + 1 }
    match info w2.tick with
    | none =>
      ({ status := "error",
         message := "Failed to check video status: request failed" }, w3)
    | some ts =>
      if ts.taskStatus = "succeed" then
        ({ status := "completed",
           message := "Video generation completed successfully",
           videoUrl := some ts.videoUrl,
           videoDuration := some ts.videoDuration }, w3)
      else if ts.taskStatus = "failed" then
        ({ status := "failed",
           message := "Video generation failed: " ++ ts.statusMsg }, w3)
      else
        ({ status := "processing",
           message := "Video generation is still in progress" }, w3)

end Kling

namespace Compat

/-- Lines 71–92 of `advancedVideoService.js`: `getVideoRequestStatus`.
`klingAiService.checkVideoStatus` is an `async function`, so calling it
never throws synchronously; the `try` returns its (awaited) result and
both `catch` branches — including the fall-back to the registry-backed
`getVideoStatus` with its not-found error, and the final fabricated
`status: 'unknown'` object — are dead code.  The embedding is therefore
the value of the `try` body; the registry is a parameter to record that
it is never consulted. -/
def getVideoRequestStatus (env : Kling.KlingEnv)
    (info : Nat → Option Kling.TaskInfo) (reg : List (String × AdvGen.Job))
    (requestId : String) (w : World) : Kling.StatusResult × World :=
  Kling.checkVideoStatus env info w

end Compat

/-- Claim C10 as amended.  The registry-backed `getVideoStatus` fails
with a non-empty `Video request <id> not found` error for every id not in
the registry and never returns a snapshot for it; the
`advancedVideoService` compat wrapper, by contrast, returns a fabricated
status object for unknown ids instead of a not-found failure (see the
counterexample). -/
theorem C10_status_unknown_amended (reg : List (String × AdvGen.Job))
    (requestId : String) (h : reg.lookup requestId = none) :
    AdvGen.getVideoStatus reg requestId =
      .error ("Video request " ++ requestId ++ " not found") ∧
    (∀ j, AdvGen.getVideoStatus reg requestId ≠ .ok j) ∧
    ("Video request " ++ requestId ++ " not found") ≠ "" := by
  unfold AdvGen.getVideoStatus
  rw [h]
  refine ⟨rfl, fun j hj => by simp at hj, fun hEq => ?_⟩
  have hlen := congrArg String.length hEq
  rw [String.length_append, String.length_append] at hlen
  simp at hlen
  exact absurd hlen.2 (by decide)

/-- Witness for C10's amended claim: the unknown id `"ghost"` in the
empty registry. -/
theorem C10_status_unknown_amended_witness :
    ([] : List (String × AdvGen.Job)).lookup "ghost" = none ∧
    (AdvGen.getVideoStatus [] "ghost" =
      .error ("Video request " ++ "ghost" ++ " not found") ∧
    (∀ j, AdvGen.getVideoStatus [] "ghost" ≠ .ok j) ∧
    ("Video request " ++ "ghost" ++ " not found") ≠ "") :=
  ⟨rfl, C10_status_unknown_amended [] "ghost" rfl⟩

/-- Counterexample to claim C10 as stated: for an id absent from the
registry, the compat-layer `getVideoRequestStatus` (also cited by the
claim) does not fail with a not-found error — it returns a fabricated
status object whose message is the Kling credentials error. -/
theorem C10_counterexample :
    ([] : List (String × AdvGen.Job)).lookup "ghost" = none ∧
    (Compat.getVideoRequestStatus (Kling.KlingEnv.mk false (fun _ => none))
      (fun _ => none) [] "ghost" testWorld).1 =
      { status := "error",
        message := "Failed to check video status: " ++ Kling.credsMsg } ∧
    (Compat.getVideoRequestStatus (Kling.KlingEnv.mk false (fun _ => none))
      (fun _ => none) [] "ghost" testWorld).1.message ≠
      "Video request ghost not found" := by
  refine ⟨rfl, rfl, ?_⟩
  decide
